import Mathlib

/-!
# OpenBootloader NVM interface of the NUCLEO-WL55JC target

A shallow embedding of `flash_interface.c`, `optionbytes_interface.c`,
`otp_interface.c` and the memory map of `openbootloader_conf.h`.

* Machine integers are `Nat`, reduced modulo `2^w` where the C code can wrap.
* A byte pointer is the memory seen from it, `Nat → Nat`, read through `deref`.
* The HAL and the controller are external. Every call of a HAL primitive, every
  register access and every flag poll is appended to `State.trace`; what the
  hardware answers is supplied by a `Platform`, as a function of the operations
  issued so far.
* `NVIC_SystemReset` does not return: a function that can reach it yields an
  `Outcome`.
-/

namespace OpenBL

/-! ## Types of the HAL and device headers -/

/-- `ErrorStatus`: the binary status reported by the interface functions. -/
inductive ErrorStatus where
  | SUCCESS
  | ERROR
  deriving DecidableEq, Repr

/-- `HAL_StatusTypeDef`: the status reported by a HAL primitive. -/
inductive HAL_StatusTypeDef where
  | HAL_OK
  | HAL_ERROR
  | HAL_BUSY
  | HAL_TIMEOUT
  deriving DecidableEq, Repr

/-- `FunctionalState`: `DISABLE`, `ENABLE`, or any other integer stored in the enum. -/
inductive FunctionalState where
  | DISABLE
  | ENABLE
  | invalid (raw : Nat)
  deriving DecidableEq, Repr

/-- Values of `FLASH_EraseInitTypeDef.TypeErase`. -/
inductive FLASH_TypeErase where
  | FLASH_TYPEERASE_PAGES
  | FLASH_TYPEERASE_MASSERASE
  deriving DecidableEq, Repr

/-- Values of the `TypeProgram` argument of `HAL_FLASH_Program`. -/
inductive FLASH_TypeProgram where
  | FLASH_TYPEPROGRAM_DOUBLEWORD
  | FLASH_TYPEPROGRAM_FAST
  deriving DecidableEq, Repr

/-- Values of `FLASH_OBProgramInitTypeDef.OptionType` used by the interface. -/
inductive OB_OptionType where
  | OPTIONBYTE_WRP
  | OPTIONBYTE_RDP
  deriving DecidableEq, Repr

/-- The two write-protection slots of bank 1. -/
inductive OB_WRPArea where
  | OB_WRPAREA_BANK1_AREAA
  | OB_WRPAREA_BANK1_AREAB
  deriving DecidableEq, Repr

/-- Status flags polled by the option commit sequence. -/
inductive FLASH_Flag where
  | FLASH_FLAG_BSY
  | FLASH_FLAG_PESD
  deriving DecidableEq, Repr

/-- Option registers of the `FLASH` peripheral written by `OPENBL_OB_Write`. -/
inductive Reg where
  | OPTR
  | PCROP1ASR
  | PCROP1AER
  | WRP1AR
  | WRP1BR
  | PCROP1BSR
  | PCROP1BER
  | IPCCBR
  deriving DecidableEq, Repr

/-- Functions that are registered as post-processing callback. -/
inductive Callback where
  | OPENBL_OB_Launch
  deriving DecidableEq, Repr

/-- `FLASH_EraseInitTypeDef`; a field that was never assigned is `none`. -/
structure FLASH_EraseInitTypeDef where
  TypeErase : Option FLASH_TypeErase := none
  Page : Option Nat := none
  NbPages : Option Nat := none
  deriving DecidableEq, Repr

/-- `FLASH_OBProgramInitTypeDef`; a field that was never assigned is `none`. -/
structure FLASH_OBProgramInitTypeDef where
  OptionType : Option OB_OptionType := none
  WRPArea : Option OB_WRPArea := none
  WRPStartOffset : Option Nat := none
  WRPEndOffset : Option Nat := none
  RDPLevel : Option Nat := none
  deriving DecidableEq, Repr

/-! ## Controller operations, platform and state -/

/-- One interaction with the HAL, the controller registers or the callback slot. -/
inductive Op where
  | HAL_FLASH_Unlock
  | HAL_FLASH_Lock
  | HAL_FLASH_OB_Unlock
  | HAL_FLASH_OB_Lock
  | HAL_FLASH_OB_Launch
  | CLEAR_FLAG_ALL_ERRORS
  | HAL_FLASH_Program (TypeProgram : FLASH_TypeProgram) (Address Data : Nat)
  | HAL_FLASHEx_Erase (pEraseInit : FLASH_EraseInitTypeDef) (status : HAL_StatusTypeDef)
  | HAL_FLASHEx_OBProgram (pOBInit : FLASH_OBProgramInitTypeDef) (status : HAL_StatusTypeDef)
  | WRITE_REG (r : Reg) (v : Nat)
  | SET_BIT_CR_OPTSTRT
  | GET_FLAG (f : FLASH_Flag) (value : Bool)
  | Common_SetPostProcessingCallback (cb : Callback)
  | NVIC_SystemReset
  deriving DecidableEq, Repr

/-- What `platform.h` and the HAL supply: two constants the sources use but do not
define, and the answers of the hardware, each a function of the operations issued
so far. -/
structure Platform where
  OB_RDP_LEVEL2 : Nat
  OPENBL_OB_TIMEOUT : Nat
  HAL_FLASHEx_Erase : List Op → FLASH_EraseInitTypeDef → HAL_StatusTypeDef
  HAL_FLASHEx_OBProgram : List Op → FLASH_OBProgramInitTypeDef → HAL_StatusTypeDef
  HAL_FLASH_GET_FLAG : List Op → FLASH_Flag → Bool

/-- The state the interface functions act on: the option registers, the option
start bit of `FLASH->CR`, the post-processing callback slot, and the log of all
operations issued, oldest first. -/
structure State where
  regs : Reg → Nat
  OPTSTRT : Bool
  PostProcessingCallback : Option Callback
  trace : List Op

/-- Result of a function that may end in `NVIC_SystemReset`. -/
inductive Outcome where
  | returned (s : State)
  | reset (s : State)

/-- The state in which a run ended, whichever way it ended. -/
def Outcome.state : Outcome → State
  | .returned s => s
  | .reset s => s

/-- Append one operation to the log. -/
def emit (o : Op) (s : State) : State :=
  { s with trace := s.trace ++ [o] }

/-- The operations issued between state `s` and a later state `t`. -/
def issued (s t : State) : List Op :=
  t.trace.drop s.trace.length

/-! ## Bytes and pointers -/

/-- A non-null `uint8_t *`: the memory at each offset from the pointer. -/
abbrev BytePtr := Nat → Nat

/-- `*(p + i)` read as `uint8_t`. -/
def deref (p : BytePtr) (i : Nat) : Nat :=
  p i % 256

/-- `p + k`. -/
def ptrAdd (p : BytePtr) (k : Nat) : BytePtr :=
  fun i => p (k + i)

/-- `*(uint16_t *)p` on the little-endian core. -/
def derefU16 (p : BytePtr) : Nat :=
  deref p 0 + 256 * deref p 1

/-- `*(uint64_t *)data` for a byte array `data`, on the little-endian core. -/
def loadLE (data : List Nat) : Nat :=
  data.foldr (fun b acc => b + 256 * acc) 0

/-- The `n` low-order bytes of `w`, least significant first. -/
def bytesLE : Nat → Nat → List Nat
  | 0, _ => []
  | n + 1, w => (w % 256) :: bytesLE n (w / 256)

/-! ## flash_interface.c -/

def FLASH_PAGE_MAX_NUMBER : Nat := 0x7F

def FLASH_PROG_STEP_SIZE : Nat := 0x8

def FLASH_PAGE_NUMBER : Nat := 128

def OPENBL_FLASH_Unlock (s : State) : State :=
  emit .HAL_FLASH_Unlock s

def OPENBL_FLASH_Lock (s : State) : State :=
  emit .HAL_FLASH_Lock s

def OPENBL_FLASH_OB_Unlock (s : State) : State :=
  emit .HAL_FLASH_OB_Unlock (emit .HAL_FLASH_Unlock s)

/-- Clears the error flags, then programs one double word. -/
def OPENBL_FLASH_Program (Address Data : Nat) (s : State) : State :=
  emit (.HAL_FLASH_Program .FLASH_TYPEPROGRAM_DOUBLEWORD Address Data)
    (emit .CLEAR_FLAG_ALL_ERRORS s)

/-- The loop `for (index = 0; index < n; index++) data[index] = *(pData + index);`. -/
def copyBytes (pData : BytePtr) (n : Nat) (data : List Nat) : List Nat :=
  (List.range n).foldl (fun d index => d.set index (deref pData index)) data

/-- The loop `for (index = 0; index < remaining; index++) data[index + DataLength] = 0xFF;`. -/
def fillFF (DataLength remaining : Nat) (data : List Nat) : List Nat :=
  (List.range remaining).foldl (fun d index => d.set (index + DataLength) 0xFF) data

/-- The `while ((DataLength >> 3U) > 0U)` loop of `OPENBL_FLASH_Write`; returns the
variables `Address`, `pData`, `DataLength`, `data` and the state at loop exit. -/
def OPENBL_FLASH_Write_loop (Address : Nat) (pData : BytePtr) (DataLength : Nat)
    (data : List Nat) (s : State) : Nat × BytePtr × Nat × List Nat × State :=
  if h : DataLength >>> 3 > 0 then
    let data1 := copyBytes pData FLASH_PROG_STEP_SIZE data
    let s1 := OPENBL_FLASH_Program Address (loadLE data1) s
    OPENBL_FLASH_Write_loop ((Address + FLASH_PROG_STEP_SIZE) % 2 ^ 32)
      (ptrAdd pData FLASH_PROG_STEP_SIZE) (DataLength - FLASH_PROG_STEP_SIZE) data1 s1
  else
    (Address, pData, DataLength, data, s)
termination_by DataLength
decreasing_by
  simp only [Nat.shiftRight_eq_div_pow, FLASH_PROG_STEP_SIZE] at *
  omega

/-- `OPENBL_FLASH_Write`; `pData = none` is the null pointer. -/
def OPENBL_FLASH_Write (Address : Nat) (pData : Option BytePtr) (DataLength : Nat)
    (s : State) : State :=
  let data : List Nat := List.replicate FLASH_PROG_STEP_SIZE 0x0
  match pData with
  | none => s
  | some p =>
    if DataLength ≠ 0 then
      let s1 := OPENBL_FLASH_Unlock s
      match OPENBL_FLASH_Write_loop Address p DataLength data s1 with
      | (Address, p, DataLength, data, s2) =>
        let s3 :=
          if DataLength > 0 then
            let remaining := (FLASH_PROG_STEP_SIZE + 2 ^ 32 - DataLength) % 2 ^ 32 % 256
            let data1 := copyBytes p DataLength data
            let data2 := fillFF DataLength remaining data1
            OPENBL_FLASH_Program Address (loadLE data2) s2
          else s2
        OPENBL_FLASH_Lock s3
    else s

/-- Modelled from the spec: `Common_SetPostProcessingCallback` of
`common_interface.c`, which is not among the sources. The deferred reset callback
is a process-wide single slot; registering a callback stores it in the slot. -/
def Common_SetPostProcessingCallback (cb : Callback) (s : State) : State :=
  emit (.Common_SetPostProcessingCallback cb) { s with PostProcessingCallback := some cb }

/-- The HAL erase primitive: the platform answers, the call and its status are logged. -/
def HAL_FLASHEx_Erase (hw : Platform) (pEraseInit : FLASH_EraseInitTypeDef) (s : State) :
    HAL_StatusTypeDef × State :=
  let r := hw.HAL_FLASHEx_Erase s.trace pEraseInit
  (r, emit (.HAL_FLASHEx_Erase pEraseInit r) s)

/-- The HAL option-program primitive: the platform answers, the call and its status
are logged. -/
def HAL_FLASHEx_OBProgram (hw : Platform) (pOBInit : FLASH_OBProgramInitTypeDef) (s : State) :
    HAL_StatusTypeDef × State :=
  let r := hw.HAL_FLASHEx_OBProgram s.trace pOBInit
  (r, emit (.HAL_FLASHEx_OBProgram pOBInit r) s)

def OPENBL_FLASH_SetReadOutProtectionLevel (hw : Platform) (Level : Nat) (s : State) : State :=
  let flash_ob : FLASH_OBProgramInitTypeDef := {}
  if Level ≠ hw.OB_RDP_LEVEL2 then
    let flash_ob := { flash_ob with OptionType := some .OPTIONBYTE_RDP }
    let flash_ob := { flash_ob with RDPLevel := some Level }
    let s := OPENBL_FLASH_OB_Unlock s
    let s := emit .CLEAR_FLAG_ALL_ERRORS s
    let s := (HAL_FLASHEx_OBProgram hw flash_ob s).2
    Common_SetPostProcessingCallback .OPENBL_OB_Launch s
  else s

def OPENBL_FLASH_EnableWriteProtection (hw : Platform) (ListOfPages : BytePtr) (Length : Nat)
    (s : State) : ErrorStatus × State :=
  let status := ErrorStatus.SUCCESS
  let flash_ob : FLASH_OBProgramInitTypeDef := {}
  let s := OPENBL_FLASH_OB_Unlock s
  let s := emit .CLEAR_FLAG_ALL_ERRORS s
  let flash_ob := { flash_ob with OptionType := some .OPTIONBYTE_WRP }
  let (flash_ob, s) :=
    if Length ≥ 2 then
      let flash_ob := { flash_ob with WRPArea := some .OB_WRPAREA_BANK1_AREAA }
      let flash_ob := { flash_ob with WRPStartOffset := some (deref ListOfPages 0) }
      let flash_ob := { flash_ob with WRPEndOffset := some (deref ListOfPages 1) }
      (flash_ob, (HAL_FLASHEx_OBProgram hw flash_ob s).2)
    else (flash_ob, s)
  let (_, s) :=
    if Length ≥ 4 then
      let flash_ob := { flash_ob with WRPArea := some .OB_WRPAREA_BANK1_AREAB }
      let flash_ob := { flash_ob with WRPStartOffset := some (deref ListOfPages 2) }
      let flash_ob := { flash_ob with WRPEndOffset := some (deref ListOfPages 3) }
      (flash_ob, (HAL_FLASHEx_OBProgram hw flash_ob s).2)
    else (flash_ob, s)
  (status, s)

def OPENBL_FLASH_DisableWriteProtection (hw : Platform) (s : State) : ErrorStatus × State :=
  let status := ErrorStatus.SUCCESS
  let flash_ob : FLASH_OBProgramInitTypeDef := {}
  let s := OPENBL_FLASH_OB_Unlock s
  let s := emit .CLEAR_FLAG_ALL_ERRORS s
  let flash_ob := { flash_ob with OptionType := some .OPTIONBYTE_WRP }
  let flash_ob := { flash_ob with WRPArea := some .OB_WRPAREA_BANK1_AREAA }
  let flash_ob := { flash_ob with WRPStartOffset := some FLASH_PAGE_MAX_NUMBER }
  let flash_ob := { flash_ob with WRPEndOffset := some 0x00 }
  let s := (HAL_FLASHEx_OBProgram hw flash_ob s).2
  let flash_ob := { flash_ob with WRPArea := some .OB_WRPAREA_BANK1_AREAB }
  let flash_ob := { flash_ob with WRPStartOffset := some FLASH_PAGE_MAX_NUMBER }
  let flash_ob := { flash_ob with WRPEndOffset := some 0x00 }
  let s := (HAL_FLASHEx_OBProgram hw flash_ob s).2
  (status, s)

def OPENBL_FLASH_SetWriteProtection (hw : Platform) (St : FunctionalState)
    (ListOfPages : BytePtr) (Length : Nat) (s : State) : ErrorStatus × State :=
  let status := ErrorStatus.SUCCESS
  if St = .ENABLE then
    let s := (OPENBL_FLASH_EnableWriteProtection hw ListOfPages Length s).2
    (status, Common_SetPostProcessingCallback .OPENBL_OB_Launch s)
  else if St = .DISABLE then
    let s := (OPENBL_FLASH_DisableWriteProtection hw s).2
    (status, Common_SetPostProcessingCallback .OPENBL_OB_Launch s)
  else
    (.ERROR, s)

def OPENBL_FLASH_MassErase (hw : Platform) (_p_Data : BytePtr) (DataLength : Nat) (s : State) :
    ErrorStatus × State :=
  let status := ErrorStatus.SUCCESS
  let erase_init_struct : FLASH_EraseInitTypeDef := {}
  let s := OPENBL_FLASH_Unlock s
  let s := emit .CLEAR_FLAG_ALL_ERRORS s
  let erase_init_struct :=
    { erase_init_struct with TypeErase := some .FLASH_TYPEERASE_MASSERASE }
  let (status, s) :=
    if DataLength ≥ 2 then
      if status = .SUCCESS then
        let r := HAL_FLASHEx_Erase hw erase_init_struct s
        if r.1 ≠ .HAL_OK then (ErrorStatus.ERROR, r.2) else (ErrorStatus.SUCCESS, r.2)
      else (status, s)
    else (ErrorStatus.ERROR, s)
  let s := OPENBL_FLASH_Lock s
  (status, s)

/-- The `for` loop of `OPENBL_FLASH_Erase`, entered with the current values of
`counter`, `p_Data`, `status`, `errors` and `erase_init_struct`; returns `errors`
and the state at loop exit. -/
def OPENBL_FLASH_Erase_loop (hw : Platform) (pages_number DataLength : Nat) (counter : Nat)
    (p_Data : BytePtr) (status : ErrorStatus) (errors : Nat)
    (erase_init_struct : FLASH_EraseInitTypeDef) (s : State) : Nat × State :=
  if h : counter < pages_number ∧ counter < DataLength / 2 then
    let init1 := { erase_init_struct with Page := some (derefU16 p_Data) }
    if status ≠ .ERROR then
      let r := HAL_FLASHEx_Erase hw init1 s
      let errors1 := if r.1 ≠ .HAL_OK then (errors + 1) % 2 ^ 32 else errors
      OPENBL_FLASH_Erase_loop hw pages_number DataLength (counter + 1) (ptrAdd p_Data 2)
        status errors1 init1 r.2
    else
      OPENBL_FLASH_Erase_loop hw pages_number DataLength (counter + 1) (ptrAdd p_Data 2)
        .SUCCESS errors init1 s
  else
    (errors, s)
termination_by pages_number - counter
decreasing_by all_goals omega

def OPENBL_FLASH_Erase (hw : Platform) (p_Data : BytePtr) (DataLength : Nat) (s : State) :
    ErrorStatus × State :=
  let errors := 0
  let status := ErrorStatus.SUCCESS
  let erase_init_struct : FLASH_EraseInitTypeDef := {}
  let s := OPENBL_FLASH_Unlock s
  let s := emit .CLEAR_FLAG_ALL_ERRORS s
  let pages_number := derefU16 p_Data
  let p_Data := ptrAdd p_Data 2
  let erase_init_struct := { erase_init_struct with TypeErase := some .FLASH_TYPEERASE_PAGES }
  let erase_init_struct := { erase_init_struct with NbPages := some 1 }
  let r := OPENBL_FLASH_Erase_loop hw pages_number DataLength 0 p_Data status errors
    erase_init_struct s
  let s := OPENBL_FLASH_Lock r.2
  if r.1 > 0 then (.ERROR, s) else (.SUCCESS, s)

/-! ## optionbytes_interface.c -/

/-- `WRITE_REG(FLASH->r, v)`. -/
def WRITE_REG (r : Reg) (v : Nat) (s : State) : State :=
  emit (.WRITE_REG r v) { s with regs := fun x => if x = r then v else s.regs x }

/-- `SET_BIT(FLASH->CR, FLASH_CR_OPTSTRT)`. -/
def SET_BIT_CR_OPTSTRT (s : State) : State :=
  emit .SET_BIT_CR_OPTSTRT { s with OPTSTRT := true }

def OPENBL_OB_Launch (s : State) : State :=
  emit .HAL_FLASH_Lock (emit .HAL_FLASH_OB_Lock (emit .HAL_FLASH_OB_Launch s))

/-- The register writes of `OPENBL_OB_Write`, from the unlock to the write of `IPCCBR`. -/
def OPENBL_OB_Write_regs (Data : BytePtr) (DataLength : Nat) (s : State) : State :=
  let s := emit .HAL_FLASH_Unlock s
  let s := emit .HAL_FLASH_OB_Unlock s
  let s := emit .CLEAR_FLAG_ALL_ERRORS s
  let s :=
    if DataLength ≥ 1 then
      WRITE_REG .OPTR ((deref Data 0 ||| (deref Data 1 <<< 8) ||| (deref Data 2 <<< 16)
        ||| (deref Data 3 <<< 24)) % 2 ^ 32) s
    else s
  let s := if DataLength > 8 then WRITE_REG .PCROP1ASR (deref Data 8) s else s
  let s :=
    if DataLength > 16 then
      WRITE_REG .PCROP1AER ((deref Data 16 ||| (deref Data 19 <<< 24)) % 2 ^ 32) s
    else s
  let s :=
    if DataLength > 24 then
      WRITE_REG .WRP1AR ((deref Data 24 ||| (deref Data 26 <<< 16)) % 2 ^ 32) s
    else s
  let s :=
    if DataLength > 32 then
      WRITE_REG .WRP1BR ((deref Data 32 ||| (deref Data 34 <<< 16)) % 2 ^ 32) s
    else s
  let s := if DataLength > 40 then WRITE_REG .PCROP1BSR (deref Data 40) s else s
  let s := if DataLength > 48 then WRITE_REG .PCROP1BER (deref Data 48) s else s
  let s :=
    if DataLength > 104 then
      WRITE_REG .IPCCBR ((deref Data 104 ||| (deref Data 105 <<< 8)) % 2 ^ 32) s
    else s
  s

/-- One busy-wait of `OPENBL_OB_Write`:
`while (__HAL_FLASH_GET_FLAG(f)) { if ((timeout++) >= OPENBL_OB_TIMEOUT) NVIC_SystemReset(); }`
entered with the current value of `timeout`. In the branch that continues
`timeout < OPENBL_OB_TIMEOUT`, so the increment does not wrap. -/
def waitWhileSet (hw : Platform) (f : FLASH_Flag) (timeout : Nat) (s : State) : Outcome :=
  if hw.HAL_FLASH_GET_FLAG s.trace f then
    if h : timeout ≥ hw.OPENBL_OB_TIMEOUT then
      .reset (emit .NVIC_SystemReset (emit (.GET_FLAG f true) s))
    else
      waitWhileSet hw f (timeout + 1) (emit (.GET_FLAG f true) s)
  else
    .returned (emit (.GET_FLAG f false) s)
termination_by hw.OPENBL_OB_TIMEOUT - timeout
decreasing_by omega

/-- The commit sequence of `OPENBL_OB_Write`, from the first busy-wait to the end. -/
def OPENBL_OB_Write_commit (hw : Platform) (s : State) : Outcome :=
  match waitWhileSet hw .FLASH_FLAG_BSY 0 s with
  | .reset s1 => .reset s1
  | .returned s1 =>
    match waitWhileSet hw .FLASH_FLAG_PESD 0 s1 with
    | .reset s2 => .reset s2
    | .returned s2 =>
      match waitWhileSet hw .FLASH_FLAG_BSY 0 (SET_BIT_CR_OPTSTRT s2) with
      | .reset s3 => .reset s3
      | .returned s3 => .returned (Common_SetPostProcessingCallback .OPENBL_OB_Launch s3)

def OPENBL_OB_Write (hw : Platform) (_Address : Nat) (Data : BytePtr) (DataLength : Nat)
    (s : State) : Outcome :=
  OPENBL_OB_Write_commit hw (OPENBL_OB_Write_regs Data DataLength s)

/-! ## Observations on the log -/

/-- The address reached from `Address` after `q` steps of
`Address += FLASH_PROG_STEP_SIZE` on a 32-bit variable. -/
def stepAddr (Address : Nat) : Nat → Nat
  | 0 => Address
  | q + 1 => stepAddr ((Address + FLASH_PROG_STEP_SIZE) % 2 ^ 32) q

/-- The operations by which `q` consecutive full units read from `p` are programmed
from `Address` on. -/
def fullUnitOps (Address : Nat) (p : BytePtr) : Nat → List Op
  | 0 => []
  | q + 1 =>
    [.CLEAR_FLAG_ALL_ERRORS,
      .HAL_FLASH_Program .FLASH_TYPEPROGRAM_DOUBLEWORD Address
        (loadLE ((List.range 8).map (deref p)))]
      ++ fullUnitOps ((Address + FLASH_PROG_STEP_SIZE) % 2 ^ 32) (ptrAdd p 8) q

/-- The operations by which a last unit of `r` bytes read from `p`, padded with
`0xFF`, is programmed at `Address`; nothing when `r = 0`. -/
def lastUnitOps (Address : Nat) (p : BytePtr) (r : Nat) : List Op :=
  if r > 0 then
    [.CLEAR_FLAG_ALL_ERRORS,
      .HAL_FLASH_Program .FLASH_TYPEPROGRAM_DOUBLEWORD Address
        (loadLE ((List.range r).map (deref p) ++ List.replicate (8 - r) 0xFF))]
  else []

/-- The 64-bit words handed to `HAL_FLASH_Program`, in call order. -/
def programmedWords (tr : List Op) : List Nat :=
  tr.filterMap fun o =>
    match o with
    | .HAL_FLASH_Program _ _ Data => some Data
    | _ => none

/-- The erase calls recorded in a log, in call order: argument and reported status. -/
def eraseCalls (tr : List Op) : List (FLASH_EraseInitTypeDef × HAL_StatusTypeDef) :=
  tr.filterMap fun o =>
    match o with
    | .HAL_FLASHEx_Erase i r => some (i, r)
    | _ => none

/-- The number of erase calls in a log that reported a status other than `HAL_OK`. -/
def failedErases (tr : List Op) : Nat :=
  ((eraseCalls tr).filter fun c => decide (c.2 ≠ .HAL_OK)).length

/-- The operations issued by `n` iterations of the page loop of `OPENBL_FLASH_Erase`
that start with log `tr`, request pointer `p` and erase structure `init`. -/
def pageEraseOps (hw : Platform) (init : FLASH_EraseInitTypeDef) (tr : List Op) (p : BytePtr) :
    Nat → List Op
  | 0 => []
  | n + 1 =>
    let init1 := { init with Page := some (derefU16 p) }
    let o := Op.HAL_FLASHEx_Erase init1 (hw.HAL_FLASHEx_Erase tr init1)
    o :: pageEraseOps hw init1 (tr ++ [o]) (ptrAdd p 2) n

/-- The operations issued by the page loop in a run of `OPENBL_FLASH_Erase` on the
request `p` with length `DataLength`, started in state `s`. -/
def eraseRequestOps (hw : Platform) (p : BytePtr) (DataLength : Nat) (s : State) : List Op :=
  pageEraseOps hw { TypeErase := some .FLASH_TYPEERASE_PAGES, NbPages := some 1 }
    (s.trace ++ [.HAL_FLASH_Unlock, .CLEAR_FLAG_ALL_ERRORS]) (ptrAdd p 2)
    (min (derefU16 p) (DataLength / 2))

/-- A platform whose primitives always report `HAL_OK` and whose flags are never
set, with `OB_RDP_LEVEL2 = 0xCC` and a timeout of 2 polls. -/
def platformOK : Platform :=
  { OB_RDP_LEVEL2 := 0xCC
    OPENBL_OB_TIMEOUT := 2
    HAL_FLASHEx_Erase := fun _ _ => .HAL_OK
    HAL_FLASHEx_OBProgram := fun _ _ => .HAL_OK
    HAL_FLASH_GET_FLAG := fun _ _ => false }

/-- The option-program calls recorded in a log, in call order: argument and
reported status. -/
def obProgramCalls (tr : List Op) : List (FLASH_OBProgramInitTypeDef × HAL_StatusTypeDef) :=
  tr.filterMap fun o =>
    match o with
    | .HAL_FLASHEx_OBProgram ob r => some (ob, r)
    | _ => none

/-- The callbacks registered in a log, in call order. -/
def callbackRegistrations (tr : List Op) : List Callback :=
  tr.filterMap fun o =>
    match o with
    | .Common_SetPostProcessingCallback cb => some cb
    | _ => none

/-- The option-program argument that sets write-protection slot `area` to
`(startOffset, endOffset)`. -/
def wrpRequest (area : OB_WRPArea) (startOffset endOffset : Nat) : FLASH_OBProgramInitTypeDef :=
  { OptionType := some .OPTIONBYTE_WRP, WRPArea := some area,
    WRPStartOffset := some startOffset, WRPEndOffset := some endOffset }

/-- The registers written in a log, in order of writing. -/
def writtenRegs (tr : List Op) : List Reg :=
  tr.filterMap fun o =>
    match o with
    | .WRITE_REG r _ => some r
    | _ => none

/-- The number of flag polls in a log. -/
def pollCount (tr : List Op) : Nat :=
  (tr.filter fun o =>
    match o with
    | .GET_FLAG _ _ => true
    | _ => false).length

/-- Whether a log contains the setting of the option start bit. -/
def setsOptStrt (tr : List Op) : Bool :=
  tr.any fun o =>
    match o with
    | .SET_BIT_CR_OPTSTRT => true
    | _ => false

/-- The option registers in the order `OPENBL_OB_Write` treats them. -/
def optionFields : List Reg :=
  [.OPTR, .PCROP1ASR, .PCROP1AER, .WRP1AR, .WRP1BR, .PCROP1BSR, .PCROP1BER, .IPCCBR]

/-- The offset in the option buffer of the field that goes to register `r`. -/
def fieldOffset : Reg → Nat
  | .OPTR => 0
  | .PCROP1ASR => 8
  | .PCROP1AER => 16
  | .WRP1AR => 24
  | .WRP1BR => 32
  | .PCROP1BSR => 40
  | .PCROP1BER => 48
  | .IPCCBR => 104

/-- A buffer of `DataLength` bytes covers the field of register `r`: at least one
byte for the field at offset 0, more than `o` bytes for a field at offset `o > 0`. -/
def fieldCovered (r : Reg) (DataLength : Nat) : Bool :=
  if r = .OPTR then decide (DataLength ≥ 1) else decide (DataLength > fieldOffset r)

/-- From the log `tr` on, flag `f` reads set on `OPENBL_OB_TIMEOUT + 1` consecutive
polls. -/
def stalls (hw : Platform) (f : FLASH_Flag) (tr : List Op) : Prop :=
  ∀ k, k ≤ hw.OPENBL_OB_TIMEOUT →
    hw.HAL_FLASH_GET_FLAG (tr ++ List.replicate k (.GET_FLAG f true)) f = true

instance (hw : Platform) (f : FLASH_Flag) (tr : List Op) : Decidable (stalls hw f tr) := by
  unfold stalls
  infer_instance

/-- A platform as `platformOK` whose flags always read set. -/
def platformStuck : Platform :=
  { platformOK with HAL_FLASH_GET_FLAG := fun _ _ => true }

/-- A platform as `platformOK` on which PESD always reads set and BSY reads clear. -/
def platformSuspended : Platform :=
  { platformOK with
    HAL_FLASH_GET_FLAG := fun _ f =>
      match f with
      | .FLASH_FLAG_PESD => true
      | .FLASH_FLAG_BSY => false }

/-- A platform as `platformOK` on which BSY reads set once the option start bit has
been set, and no flag reads set before. -/
def platformBusyAfterStart : Platform :=
  { platformOK with
    HAL_FLASH_GET_FLAG := fun tr f =>
      match f with
      | .FLASH_FLAG_PESD => false
      | .FLASH_FLAG_BSY => setsOptStrt tr }

/-- Whether a run ended in `NVIC_SystemReset`. -/
def Outcome.isReset : Outcome → Bool
  | .returned _ => false
  | .reset _ => true

/-- A run from state `s` with outcome `out` ended in the system reset on the last of
`OPENBL_OB_TIMEOUT + 1` consecutive polls that read flag `f` set, and registered no
deferred callback. -/
def resetOnStall (hw : Platform) (f : FLASH_Flag) (s : State) (out : Outcome) : Prop :=
  out.isReset = true ∧
  (List.replicate (hw.OPENBL_OB_TIMEOUT + 1) (Op.GET_FLAG f true) ++ [Op.NVIC_SystemReset])
    <:+ issued s out.state ∧
  out.state.PostProcessingCallback = s.PostProcessingCallback ∧
  callbackRegistrations (issued s out.state) = []

/-- A run from state `s` with outcome `out` never set the option start bit. -/
def optStrtUntouched (s : State) (out : Outcome) : Prop :=
  setsOptStrt (issued s out.state) = false ∧ out.state.OPTSTRT = s.OPTSTRT

/-- An initial state: registers zero, no callback pending, empty log. -/
def State.init : State :=
  { regs := fun _ => 0, OPTSTRT := false, PostProcessingCallback := none, trace := [] }

/-- Whether an operation is a step of a program call: the clearing of the error
flags or the double-word program itself. -/
def isProgramStep : Op → Bool
  | .CLEAR_FLAG_ALL_ERRORS => true
  | .HAL_FLASH_Program _ _ _ => true
  | _ => false

/-! ## otp_interface.c -/

def OTP_PROG_STEP_SIZE : Nat := 0x8

/-- Clears the error flags, then programs one double word. -/
def OPENBL_OTP_Program (Address Data : Nat) (s : State) : State :=
  emit (.HAL_FLASH_Program .FLASH_TYPEPROGRAM_DOUBLEWORD Address Data)
    (emit .CLEAR_FLAG_ALL_ERRORS s)

/-- `*(uint64_t *)p` for a byte pointer `p`, on the little-endian core. -/
def derefU64 (p : BytePtr) : Nat :=
  loadLE ((List.range 8).map (deref p))

/-- The `while ((DataLength >> 3U) > 0U)` loop of `OPENBL_OTP_Write`; returns the
variables `Address`, `pData`, `DataLength` and the state at loop exit. -/
def OPENBL_OTP_Write_loop (Address : Nat) (pData : BytePtr) (DataLength : Nat) (s : State) :
    Nat × BytePtr × Nat × State :=
  if h : DataLength >>> 3 > 0 then
    let s1 := OPENBL_OTP_Program Address (derefU64 pData) s
    OPENBL_OTP_Write_loop ((Address + OTP_PROG_STEP_SIZE) % 2 ^ 32)
      (ptrAdd pData OTP_PROG_STEP_SIZE) (DataLength - OTP_PROG_STEP_SIZE) s1
  else
    (Address, pData, DataLength, s)
termination_by DataLength
decreasing_by
  simp only [Nat.shiftRight_eq_div_pow, OTP_PROG_STEP_SIZE] at *
  omega

/-- `OPENBL_OTP_Write`; `pData = none` is the null pointer. The last statement, a
second `HAL_FLASH_Lock()`, stands after the `if` block. -/
def OPENBL_OTP_Write (Address : Nat) (pData : Option BytePtr) (DataLength : Nat)
    (s : State) : State :=
  let remaining_data : List Nat := List.replicate OTP_PROG_STEP_SIZE 0x0
  let s4 :=
    match pData with
    | none => s
    | some p =>
      if DataLength ≠ 0 then
        let s1 := emit .HAL_FLASH_Unlock s
        match OPENBL_OTP_Write_loop Address p DataLength s1 with
        | (Address, p, DataLength, s2) =>
          let s3 :=
            if DataLength > 0 then
              let remaining := (OTP_PROG_STEP_SIZE + 2 ^ 32 - DataLength) % 2 ^ 32 % 256
              let data1 := copyBytes p DataLength remaining_data
              let data2 := fillFF DataLength remaining data1
              OPENBL_OTP_Program Address (loadLE data2) s2
            else s2
          emit .HAL_FLASH_Lock s3
      else s
  emit .HAL_FLASH_Lock s4

/-- A platform as `platformOK` whose option-program primitive always reports
`HAL_ERROR`. -/
def platformOBFails : Platform :=
  { platformOK with HAL_FLASHEx_OBProgram := fun _ _ => .HAL_ERROR }

/-! ## openbootloader_conf.h and the region descriptors -/

def FLASH_BL_SIZE : Nat := (256 * 1024) % 2 ^ 32

def FLASH_START_ADDRESS : Nat := 0x08000000

def FLASH_END_ADDRESS : Nat := (FLASH_START_ADDRESS + FLASH_BL_SIZE) % 2 ^ 32

def RAM_SIZE : Nat := (64 * 1024) % 2 ^ 32

def RAM_START_ADDRESS : Nat := 0x20000000

def RAM_END_ADDRESS : Nat := (RAM_START_ADDRESS + RAM_SIZE) % 2 ^ 32

def ICP1_SIZE : Nat := (28 * 1024) % 2 ^ 32

def ICP1_START_ADDRESS : Nat := 0x1FFF0000

def ICP1_END_ADDRESS : Nat := (ICP1_START_ADDRESS + ICP1_SIZE) % 2 ^ 32

def OB1_SIZE : Nat := 112

def OB1_START_ADDRESS : Nat := 0x1FFF7800

def OB1_END_ADDRESS : Nat := (OB1_START_ADDRESS + OB1_SIZE) % 2 ^ 32

def OTP_BL_SIZE : Nat := 1024

def OTP_START_ADDRESS : Nat := 0x1FFF7000

def OTP_END_ADDRESS : Nat := (OTP_START_ADDRESS + OTP_BL_SIZE) % 2 ^ 32

def EB_SIZE : Nat := 1024

def EB_START_ADDRESS : Nat := 0x1FFF7400

def EB_END_ADDRESS : Nat := (EB_START_ADDRESS + EB_SIZE) % 2 ^ 32

def AREA_ERROR : Nat := 0x0

def FLASH_AREA : Nat := 0x1

def RAM_AREA : Nat := 0x2

def OB_AREA : Nat := 0x3

def OTP_AREA : Nat := 0x4

def ICP_AREA : Nat := 0x5

def EB_AREA : Nat := 0x6

/-- The interface functions that the descriptors reference. -/
inductive InterfaceFunction where
  | OPENBL_FLASH_Read
  | OPENBL_FLASH_Write
  | OPENBL_FLASH_SetReadOutProtectionLevel
  | OPENBL_FLASH_SetWriteProtection
  | OPENBL_FLASH_JumpToAddress
  | OPENBL_FLASH_MassErase
  | OPENBL_FLASH_Erase
  | OPENBL_OTP_Read
  | OPENBL_OTP_Write
  | OPENBL_OB_Read
  | OPENBL_OB_Write
  deriving DecidableEq, Repr

/-- Modelled from the spec: the type `OPENBL_MemoryTypeDef` of `openbl_mem.h`, which is
not among the sources. A region descriptor holds the address range `[start, end)`,
the total size, the region-kind tag, and function references for read, write,
set-read-protection-level, set-write-protection, jump and erase; the initialisers in
the sources give eleven values, so there is one more slot between jump and erase.
An absent capability (`NULL`) is `none`. -/
structure OPENBL_MemoryTypeDef where
  StartAddress : Nat
  EndAddress : Nat
  Size : Nat
  Kind : Nat
  Read : Option InterfaceFunction
  Write : Option InterfaceFunction
  SetReadOutProtect : Option InterfaceFunction
  SetWriteProtect : Option InterfaceFunction
  JumpToAddress : Option InterfaceFunction
  MassErase : Option InterfaceFunction
  Erase : Option InterfaceFunction
  deriving DecidableEq, Repr

def FLASH_Descriptor : OPENBL_MemoryTypeDef :=
  { StartAddress := FLASH_START_ADDRESS
    EndAddress := FLASH_END_ADDRESS
    Size := FLASH_BL_SIZE
    Kind := FLASH_AREA
    Read := some .OPENBL_FLASH_Read
    Write := some .OPENBL_FLASH_Write
    SetReadOutProtect := some .OPENBL_FLASH_SetReadOutProtectionLevel
    SetWriteProtect := some .OPENBL_FLASH_SetWriteProtection
    JumpToAddress := some .OPENBL_FLASH_JumpToAddress
    MassErase := none
    Erase := some .OPENBL_FLASH_Erase }

def OTP_Descriptor : OPENBL_MemoryTypeDef :=
  { StartAddress := OTP_START_ADDRESS
    EndAddress := OTP_END_ADDRESS
    Size := OTP_BL_SIZE
    Kind := OTP_AREA
    Read := some .OPENBL_OTP_Read
    Write := some .OPENBL_OTP_Write
    SetReadOutProtect := none
    SetWriteProtect := none
    JumpToAddress := none
    MassErase := none
    Erase := none }

def OB1_Descriptor : OPENBL_MemoryTypeDef :=
  { StartAddress := OB1_START_ADDRESS
    EndAddress := OB1_END_ADDRESS
    Size := OB1_SIZE
    Kind := OB_AREA
    Read := some .OPENBL_OB_Read
    Write := some .OPENBL_OB_Write
    SetReadOutProtect := none
    SetWriteProtect := none
    JumpToAddress := none
    MassErase := none
    Erase := none }

/-- A descriptor is well formed: its range is not empty, its size is the length of
the range, and neither the size nor the end address wrapped in 32 bits. -/
def OPENBL_MemoryTypeDef.wellFormed (d : OPENBL_MemoryTypeDef) : Bool :=
  decide (d.StartAddress < d.EndAddress) && decide (d.Size = d.EndAddress - d.StartAddress) &&
    decide (d.StartAddress + d.Size < 2 ^ 32) && decide (d.EndAddress = d.StartAddress + d.Size)

/-- The erase argument for the single page whose number is the little-endian 16-bit
value at bytes `2 + 2 * k` and `3 + 2 * k` of the request `p`. -/
def pageRequest (p : BytePtr) (k : Nat) : FLASH_EraseInitTypeDef :=
  { TypeErase := some .FLASH_TYPEERASE_PAGES
    Page := some (deref p (2 + 2 * k) + 256 * deref p (3 + 2 * k))
    NbPages := some 1 }

/-- The program calls recorded in a log, in call order: program type and address. -/
def programCalls (tr : List Op) : List (FLASH_TypeProgram × Nat) :=
  tr.filterMap fun o =>
    match o with
    | .HAL_FLASH_Program t a _ => some (t, a)
    | _ => none

/-- The register writes recorded in a log, in order: register and value. -/
def regWrites (tr : List Op) : List (Reg × Nat) :=
  tr.filterMap fun o =>
    match o with
    | .WRITE_REG r v => some (r, v)
    | _ => none

/-- The 32-bit value that the option buffer `D` holds for the register `r`, by the
field table: `OPTR = D[0] | D[1]<<8 | D[2]<<16 | D[3]<<24`, `PCROP1ASR = D[8]`,
`PCROP1AER = D[16] | D[19]<<24`, `WRP1AR = D[24] | D[26]<<16`,
`WRP1BR = D[32] | D[34]<<16`, `PCROP1BSR = D[40]`, `PCROP1BER = D[48]`,
`IPCCBR = D[104] | D[105]<<8`, all modulo `2^32`. -/
def fieldValue (D : BytePtr) : Reg → Nat
  | .OPTR =>
    (deref D 0 ||| (deref D 1 <<< 8) ||| (deref D 2 <<< 16) ||| (deref D 3 <<< 24)) % 2 ^ 32
  | .PCROP1ASR => deref D 8 % 2 ^ 32
  | .PCROP1AER => (deref D 16 ||| (deref D 19 <<< 24)) % 2 ^ 32
  | .WRP1AR => (deref D 24 ||| (deref D 26 <<< 16)) % 2 ^ 32
  | .WRP1BR => (deref D 32 ||| (deref D 34 <<< 16)) % 2 ^ 32
  | .PCROP1BSR => deref D 40 % 2 ^ 32
  | .PCROP1BER => deref D 48 % 2 ^ 32
  | .IPCCBR => (deref D 104 ||| (deref D 105 <<< 8)) % 2 ^ 32

/-- The offsets of the option buffer that enter the field table. -/
def fieldBytes : List Nat :=
  [0, 1, 2, 3, 8, 16, 19, 24, 26, 32, 34, 40, 48, 104, 105]

/-- The buffer `D` with every byte at an offset outside `keep` replaced by zero. -/
def maskTo (keep : List Nat) (D : BytePtr) : BytePtr :=
  fun i => if i ∈ keep then D i else 0

/-- Whether an operation is a call of the erase primitive. -/
def isEraseCall : Op → Bool
  | .HAL_FLASHEx_Erase _ _ => true
  | _ => false

/-- Modelled from the spec: the lock on controller access as the HAL primitives
`HAL_FLASH_Unlock` and `HAL_FLASH_Lock`, which are not among the sources, leave it
after the operations of a log: unlocking opens it, locking closes it, and no other
operation changes it. `locked` is the lock before the log. -/
def flashLockedAfter (locked : Bool) (tr : List Op) : Bool :=
  tr.foldl (fun l o =>
    match o with
    | .HAL_FLASH_Unlock => false
    | .HAL_FLASH_Lock => true
    | _ => l) locked

/-- The argument of the one erase call of `OPENBL_FLASH_MassErase`: only the erase
type is assigned. -/
def massEraseRequest : FLASH_EraseInitTypeDef :=
  { TypeErase := some .FLASH_TYPEERASE_MASSERASE }

/-- The optional capability slots of a descriptor, in the order of the initialiser:
read-protection, write-protection, jump, the slot between jump and erase, erase. -/
def OPENBL_MemoryTypeDef.optionalSlots (d : OPENBL_MemoryTypeDef) :
    List (Option InterfaceFunction) :=
  [d.SetReadOutProtect, d.SetWriteProtect, d.JumpToAddress, d.MassErase, d.Erase]

/-- All function slots of a descriptor, in the order of the initialiser. -/
def OPENBL_MemoryTypeDef.slots (d : OPENBL_MemoryTypeDef) : List (Option InterfaceFunction) :=
  d.Read :: d.Write :: d.optionalSlots

/-- The six memory regions of `openbootloader_conf.h`: start address, end address and
size of each. -/
def memoryRegions : List (Nat × Nat × Nat) :=
  [(FLASH_START_ADDRESS, FLASH_END_ADDRESS, FLASH_BL_SIZE),
   (RAM_START_ADDRESS, RAM_END_ADDRESS, RAM_SIZE),
   (ICP1_START_ADDRESS, ICP1_END_ADDRESS, ICP1_SIZE),
   (OB1_START_ADDRESS, OB1_END_ADDRESS, OB1_SIZE),
   (OTP_START_ADDRESS, OTP_END_ADDRESS, OTP_BL_SIZE),
   (EB_START_ADDRESS, EB_END_ADDRESS, EB_SIZE)]

/-- Whether the address `a` lies in the range `[start, end)` of a region. -/
def inRegion (a : Nat) (r : Nat × Nat × Nat) : Bool :=
  decide (r.1 ≤ a) && decide (a < r.2.1)

/-- Whether two regions have no address in common. -/
def regionsDisjoint (r1 r2 : Nat × Nat × Nat) : Bool :=
  decide (r1.2.1 ≤ r2.1) || decide (r2.2.1 ≤ r1.1)

/-- The program calls recorded in a log, in call order, with all their arguments:
program type, address and 64-bit data. -/
def programOps (tr : List Op) : List (FLASH_TypeProgram × Nat × Nat) :=
  tr.filterMap fun o =>
    match o with
    | .HAL_FLASH_Program t a d => some (t, a, d)
    | _ => none

/-- Whether an operation is `HAL_FLASH_Unlock` or `HAL_FLASH_Lock`. -/
def isLockOp : Op → Bool
  | .HAL_FLASH_Unlock => true
  | .HAL_FLASH_Lock => true
  | _ => false

/-- The operations of one program call: the clearing of the error flags, directly
followed by the program primitive. -/
def programCallOps (c : FLASH_TypeProgram × Nat × Nat) : List Op :=
  [.CLEAR_FLAG_ALL_ERRORS, .HAL_FLASH_Program c.1 c.2.1 c.2.2]

/-- `*(Data + i)` read as `uint8_t` from a buffer that consists of exactly the bytes of
the list `Data`: `none` when `i` is not an index of the buffer. -/
def readByte (Data : List Nat) (i : Nat) : Option Nat :=
  (Data[i]?).map (fun b => b % 256)

/-- The register writes of `OPENBL_OB_Write` (as `OPENBL_OB_Write_regs`) on a buffer
that consists of exactly the bytes of the list `Data`, every read being checked:
the result is `none` as soon as a read falls outside the buffer. -/
def OPENBL_OB_Write_regs_checked (Data : List Nat) (DataLength : Nat) (s : State) :
    Option State := do
  let s := emit .HAL_FLASH_Unlock s
  let s := emit .HAL_FLASH_OB_Unlock s
  let s := emit .CLEAR_FLAG_ALL_ERRORS s
  let s ← (if DataLength ≥ 1 then do
      let d0 ← readByte Data 0
      let d1 ← readByte Data 1
      let d2 ← readByte Data 2
      let d3 ← readByte Data 3
      pure (WRITE_REG .OPTR ((d0 ||| (d1 <<< 8) ||| (d2 <<< 16) ||| (d3 <<< 24)) % 2 ^ 32) s)
    else pure s)
  let s ← (if DataLength > 8 then do
      let d8 ← readByte Data 8
      pure (WRITE_REG .PCROP1ASR d8 s)
    else pure s)
  let s ← (if DataLength > 16 then do
      let d16 ← readByte Data 16
      let d19 ← readByte Data 19
      pure (WRITE_REG .PCROP1AER ((d16 ||| (d19 <<< 24)) % 2 ^ 32) s)
    else pure s)
  let s ← (if DataLength > 24 then do
      let d24 ← readByte Data 24
      let d26 ← readByte Data 26
      pure (WRITE_REG .WRP1AR ((d24 ||| (d26 <<< 16)) % 2 ^ 32) s)
    else pure s)
  let s ← (if DataLength > 32 then do
      let d32 ← readByte Data 32
      let d34 ← readByte Data 34
      pure (WRITE_REG .WRP1BR ((d32 ||| (d34 <<< 16)) % 2 ^ 32) s)
    else pure s)
  let s ← (if DataLength > 40 then do
      let d40 ← readByte Data 40
      pure (WRITE_REG .PCROP1BSR d40 s)
    else pure s)
  let s ← (if DataLength > 48 then do
      let d48 ← readByte Data 48
      pure (WRITE_REG .PCROP1BER d48 s)
    else pure s)
  let s ← (if DataLength > 104 then do
      let d104 ← readByte Data 104
      let d105 ← readByte Data 105
      pure (WRITE_REG .IPCCBR ((d104 ||| (d105 <<< 8)) % 2 ^ 32) s)
    else pure s)
  pure s

/-- The memory seen from a pointer to a buffer that holds the bytes of `Data`; what
lies behind the buffer is taken as zero. -/
def bufferOf (Data : List Nat) : BytePtr :=
  fun i => Data.getD i 0

/-- The buffer lengths for which `OPENBL_OB_Write` reads behind the buffer. -/
def overreadLengths : List Nat :=
  [1, 2, 3, 17, 18, 19, 25, 26, 33, 34, 105]

/-- Modelled from the spec: the lock on option-byte access as the HAL primitives
`HAL_FLASH_OB_Unlock` and `HAL_FLASH_OB_Lock`, which are not among the sources, leave
it after the operations of a log: unlocking opens it, locking closes it, and no
other operation changes it. `locked` is the lock before the log. -/
def obLockedAfter (locked : Bool) (tr : List Op) : Bool :=
  tr.foldl (fun l o =>
    match o with
    | .HAL_FLASH_OB_Unlock => false
    | .HAL_FLASH_OB_Lock => true
    | _ => l) locked

/-- A state reached with both locks released and `OPENBL_OB_Launch` pending: after
the operations issued since `s`, flash access and option-byte access are unlocked,
whatever they were before, and the callback slot holds `OPENBL_OB_Launch`. -/
def leftUnlockedWithLaunch (locked obLocked : Bool) (s t : State) : Prop :=
  flashLockedAfter locked (issued s t) = false ∧
  obLockedAfter obLocked (issued s t) = false ∧
  t.PostProcessingCallback = some .OPENBL_OB_Launch

/-! # Theorems -/

/-! ## Bytes: helper lemmas -/

theorem set_at_length (A : List Nat) (l : List Nat) (v : Nat) (h : 0 < l.length) :
    (A ++ l).set A.length v = A ++ v :: l.drop 1 := by
  cases l with
  | nil => simp at h
  | cons x t => simp

theorem copyBytes_eq (p : BytePtr) (n : Nat) (data : List Nat) (h : n ≤ data.length) :
    copyBytes p n data = (List.range n).map (deref p) ++ data.drop n := by
  unfold copyBytes
  induction n with
  | zero => simp
  | succ n ih =>
    have hn : n ≤ data.length := by omega
    rw [List.range_succ, List.foldl_append, ih hn]
    have hl : ((List.range n).map (deref p)).length = n := by simp
    have h2 := set_at_length ((List.range n).map (deref p)) (data.drop n) (deref p n)
      (by simp; omega)
    rw [hl] at h2
    simp only [List.foldl_cons, List.foldl_nil, h2, List.map_append, List.map_cons, List.map_nil,
      List.drop_drop, List.append_assoc, List.singleton_append]

theorem fillFF_eq (L r : Nat) (data : List Nat) (h : L + r ≤ data.length) :
    fillFF L r data = data.take L ++ List.replicate r 0xFF ++ data.drop (L + r) := by
  unfold fillFF
  induction r with
  | zero => simp
  | succ r ih =>
    have hr : L + r ≤ data.length := by omega
    rw [List.range_succ, List.foldl_append, ih hr]
    have hl : (data.take L ++ List.replicate r 0xFF).length = L + r := by
      simp; omega
    have h2 := set_at_length (data.take L ++ List.replicate r 0xFF) (data.drop (L + r)) 0xFF
      (by simp; omega)
    rw [hl] at h2
    simp only [List.foldl_cons, List.foldl_nil]
    rw [Nat.add_comm r L, h2, List.drop_drop, List.replicate_succ', ← List.append_assoc]
    simp [Nat.add_comm, Nat.add_left_comm, Nat.add_assoc]

theorem bytesLE_loadLE (data : List Nat) (h : ∀ b ∈ data, b < 256) :
    bytesLE data.length (loadLE data) = data := by
  induction data with
  | nil => rfl
  | cons b t ih =>
    have hb : b < 256 := h b (by simp)
    have ht : ∀ x ∈ t, x < 256 := fun x hx => h x (by simp [hx])
    have e : loadLE (b :: t) = b + 256 * loadLE t := rfl
    simp only [List.length_cons, bytesLE, e]
    have h1 : (b + 256 * loadLE t) % 256 = b := by omega
    have h2 : (b + 256 * loadLE t) / 256 = loadLE t := by omega
    rw [h1, h2, ih ht]

theorem ptrAdd_ptrAdd (p : BytePtr) (a b : Nat) : ptrAdd (ptrAdd p a) b = ptrAdd p (a + b) := by
  funext i
  simp [ptrAdd, Nat.add_assoc]

theorem ptrAdd_zero (p : BytePtr) : ptrAdd p 0 = p := by
  funext i
  simp [ptrAdd]

theorem copyBytes_full (p : BytePtr) (data : List Nat) (hd : data.length = 8) :
    copyBytes p FLASH_PROG_STEP_SIZE data = (List.range 8).map (deref p) := by
  rw [copyBytes_eq p FLASH_PROG_STEP_SIZE data (by simp [FLASH_PROG_STEP_SIZE, hd])]
  have : data.drop FLASH_PROG_STEP_SIZE = [] := by
    apply List.drop_eq_nil_of_le
    simp [FLASH_PROG_STEP_SIZE, hd]
  rw [this]
  simp [FLASH_PROG_STEP_SIZE]

theorem write_loop_eq (L : Nat) : ∀ (A : Nat) (p : BytePtr) (data : List Nat) (s : State),
    data.length = 8 →
    ∃ data1 : List Nat, data1.length = 8 ∧
      OPENBL_FLASH_Write_loop A p L data s =
        (stepAddr A (L / 8), ptrAdd p (8 * (L / 8)), L % 8, data1,
          { s with trace := s.trace ++ fullUnitOps A p (L / 8) }) := by
  induction L using Nat.strong_induction_on with
  | _ L ih =>
    intro A p data s hd
    rw [OPENBL_FLASH_Write_loop]
    by_cases h : L >>> 3 > 0
    · have h8 : 8 ≤ L := by
        simp only [Nat.shiftRight_eq_div_pow] at h
        omega
      have hq : L / 8 = (L - 8) / 8 + 1 := by omega
      have hm : (L - 8) % 8 = L % 8 := by omega
      obtain ⟨data1, hd1, e⟩ := ih (L - FLASH_PROG_STEP_SIZE) (by simp [FLASH_PROG_STEP_SIZE]; omega)
        ((A + FLASH_PROG_STEP_SIZE) % 2 ^ 32) (ptrAdd p FLASH_PROG_STEP_SIZE)
        (copyBytes p FLASH_PROG_STEP_SIZE data)
        (OPENBL_FLASH_Program A (loadLE (copyBytes p FLASH_PROG_STEP_SIZE data)) s)
        (by rw [copyBytes_full p data hd]; simp)
      refine ⟨data1, hd1, ?_⟩
      simp only [h, ↓reduceDIte, e]
      have hc := copyBytes_full p data hd
      simp only [FLASH_PROG_STEP_SIZE] at *
      rw [hq, hm, ptrAdd_ptrAdd, hc]
      simp [stepAddr, fullUnitOps, OPENBL_FLASH_Program, emit, FLASH_PROG_STEP_SIZE,
        Nat.mul_add, Nat.add_comm]
    · have h8 : L < 8 := by
        simp only [Nat.shiftRight_eq_div_pow] at h
        omega
      have hq : L / 8 = 0 := by omega
      have hm : L % 8 = L := by omega
      refine ⟨data, hd, ?_⟩
      simp only [h, ↓reduceDIte, hq, hm]
      simp only [stepAddr, fullUnitOps, List.append_nil, Nat.mul_zero, ptrAdd_zero]

theorem issued_append (s : State) (t : State) (ops : List Op) (h : t.trace = s.trace ++ ops) :
    issued s t = ops := by
  simp [issued, h]

theorem OPENBL_FLASH_Write_eq (A : Nat) (p : BytePtr) (L : Nat) (s : State) (hL : L ≠ 0) :
    OPENBL_FLASH_Write A (some p) L s =
      { s with trace := s.trace ++ ([Op.HAL_FLASH_Unlock] ++ fullUnitOps A p (L / 8) ++
          lastUnitOps (stepAddr A (L / 8)) (ptrAdd p (8 * (L / 8))) (L % 8) ++
          [Op.HAL_FLASH_Lock]) } := by
  obtain ⟨data1, hd1, e⟩ := write_loop_eq L A p (List.replicate FLASH_PROG_STEP_SIZE 0x0)
    (OPENBL_FLASH_Unlock s) (by simp [FLASH_PROG_STEP_SIZE])
  simp only [OPENBL_FLASH_Write, hL, ne_eq, not_false_eq_true, ↓reduceIte, e]
  have hr : L % 8 < 8 := Nat.mod_lt _ (by decide)
  by_cases h0 : L % 8 > 0
  · have hrem : (FLASH_PROG_STEP_SIZE + 2 ^ 32 - L % 8) % 2 ^ 32 % 256 = 8 - L % 8 := by
      simp only [FLASH_PROG_STEP_SIZE]
      omega
    have hcopy := copyBytes_eq (ptrAdd p (8 * (L / 8))) (L % 8) data1 (by omega)
    have hfill := fillFF_eq (L % 8) (8 - L % 8) (copyBytes (ptrAdd p (8 * (L / 8))) (L % 8) data1)
      (by rw [hcopy]; simp; omega)
    have hlen : ((List.range (L % 8)).map (deref (ptrAdd p (8 * (L / 8))))).length = L % 8 := by
      simp
    have htake : List.take (L % 8) (copyBytes (ptrAdd p (8 * (L / 8))) (L % 8) data1)
        = (List.range (L % 8)).map (deref (ptrAdd p (8 * (L / 8)))) := by
      rw [hcopy]
      simp [List.take_append_eq_append_take]
    have hdrop : List.drop (L % 8 + (8 - L % 8))
        (copyBytes (ptrAdd p (8 * (L / 8))) (L % 8) data1) = [] := by
      apply List.drop_eq_nil_of_le
      rw [hcopy]
      simp
      omega
    rw [htake, hdrop, List.append_nil] at hfill
    simp only [h0, ↓reduceIte, hrem, hfill, lastUnitOps]
    simp [OPENBL_FLASH_Lock, OPENBL_FLASH_Program, OPENBL_FLASH_Unlock, emit]
  · simp only [h0, ↓reduceIte, lastUnitOps]
    simp [OPENBL_FLASH_Lock, OPENBL_FLASH_Unlock, emit]

theorem programmedWords_fullUnitOps (q : Nat) : ∀ (A : Nat) (p : BytePtr),
    (programmedWords (fullUnitOps A p q)).length = q ∧
    (programmedWords (fullUnitOps A p q)).flatMap (bytesLE 8) = (List.range (8 * q)).map (deref p) := by
  induction q with
  | zero => intro A p; simp [fullUnitOps, programmedWords]
  | succ q ih =>
    intro A p
    obtain ⟨h1, h2⟩ := ih ((A + FLASH_PROG_STEP_SIZE) % 2 ^ 32) (ptrAdd p 8)
    have hb := bytesLE_loadLE ((List.range 8).map (deref p)) (by
      intro b hb
      simp only [List.mem_map] at hb
      obtain ⟨i, _, rfl⟩ := hb
      exact Nat.mod_lt _ (by decide))
    simp only [List.length_map, List.length_range] at hb
    have e : programmedWords (fullUnitOps A p (q + 1)) =
        loadLE ((List.range 8).map (deref p)) ::
          programmedWords (fullUnitOps ((A + FLASH_PROG_STEP_SIZE) % 2 ^ 32) (ptrAdd p 8) q) := by
      simp [fullUnitOps, programmedWords]
    rw [e]
    refine ⟨by rw [List.length_cons, h1], ?_⟩
    rw [List.flatMap_cons, hb, h2, Nat.mul_add, Nat.mul_one, Nat.add_comm (8 * q) 8,
      List.range_add, List.map_append, List.map_map]
    rfl

theorem programmedWords_lastUnitOps (A : Nat) (p : BytePtr) (r : Nat) (hr : r < 8) :
    (programmedWords (lastUnitOps A p r)).length = (if r > 0 then 1 else 0) ∧
    (programmedWords (lastUnitOps A p r)).flatMap (bytesLE 8) =
      (List.range r).map (deref p) ++ List.replicate (if r > 0 then 8 - r else 0) 0xFF := by
  by_cases h0 : r > 0
  · have hb := bytesLE_loadLE ((List.range r).map (deref p) ++ List.replicate (8 - r) 0xFF) (by
      intro b hb
      simp only [List.mem_append, List.mem_map, List.mem_replicate] at hb
      rcases hb with ⟨i, _, rfl⟩ | ⟨_, rfl⟩
      · exact Nat.mod_lt _ (by decide)
      · decide)
    have hl : ((List.range r).map (deref p) ++ List.replicate (8 - r) 0xFF).length = 8 := by
      simp
      omega
    rw [hl] at hb
    simp [lastUnitOps, h0, programmedWords, hb]
  · have : r = 0 := by omega
    subst this
    simp [lastUnitOps, programmedWords]

/-- C1: for every buffer `B` and start address, `OPENBL_FLASH_Write` issues exactly
`⌈L/8⌉` double-word program calls (`L` the length of `B`); the programmed words,
each read as 8 little-endian bytes and concatenated in call order, are `B` followed
by `8 * ⌈L/8⌉ - L` bytes `0xFF`. -/
theorem C1_flash_write_packs_buffer (Address : Nat) (pData : BytePtr) (B : List Nat) (s : State)
    (hB : ∀ i (h : i < B.length), deref pData i = B[i]) :
    (programmedWords (issued s (OPENBL_FLASH_Write Address (some pData) B.length s))).length
        = (B.length + 7) / 8 ∧
    (programmedWords (issued s (OPENBL_FLASH_Write Address (some pData) B.length s))).flatMap
        (bytesLE 8)
        = B ++ List.replicate (8 * ((B.length + 7) / 8) - B.length) 0xFF := by
  have hmap : (List.range B.length).map (deref pData) = B :=
    List.ext_getElem (by simp) (fun i h1 h2 => by simp [hB i h2])
  by_cases hL : B.length = 0
  · have hnil : B = [] := List.length_eq_zero.mp hL
    subst hnil
    simp [OPENBL_FLASH_Write, issued, programmedWords]
  · have he := OPENBL_FLASH_Write_eq Address pData B.length s hL
    have hi := issued_append s _ _ (congrArg State.trace he)
    rw [hi]
    obtain ⟨f1, f2⟩ := programmedWords_fullUnitOps (B.length / 8) Address pData
    have hr : B.length % 8 < 8 := Nat.mod_lt _ (by decide)
    obtain ⟨l1, l2⟩ := programmedWords_lastUnitOps (stepAddr Address (B.length / 8))
      (ptrAdd pData (8 * (B.length / 8))) (B.length % 8) hr
    have hpw : programmedWords ([Op.HAL_FLASH_Unlock] ++ fullUnitOps Address pData (B.length / 8) ++
          lastUnitOps (stepAddr Address (B.length / 8)) (ptrAdd pData (8 * (B.length / 8)))
            (B.length % 8) ++ [Op.HAL_FLASH_Lock]) =
        programmedWords (fullUnitOps Address pData (B.length / 8)) ++
          programmedWords (lastUnitOps (stepAddr Address (B.length / 8))
            (ptrAdd pData (8 * (B.length / 8))) (B.length % 8)) := by
      simp [programmedWords, List.filterMap_append]
    rw [hpw]
    constructor
    · rw [List.length_append, f1, l1]
      split <;> omega
    · rw [List.flatMap_append, f2, l2, ← List.append_assoc]
      have hsplit : (List.range (8 * (B.length / 8))).map (deref pData) ++
          (List.range (B.length % 8)).map (deref (ptrAdd pData (8 * (B.length / 8)))) = B := by
        have hm : (List.range (B.length % 8)).map (deref (ptrAdd pData (8 * (B.length / 8)))) =
            ((List.range (B.length % 8)).map (fun x => 8 * (B.length / 8) + x)).map
              (deref pData) := by
          rw [List.map_map]
          rfl
        rw [hm, ← List.map_append, ← List.range_add, Nat.div_add_mod]
        exact hmap
      rw [hsplit]
      congr 2
      split <;> omega

/-- Witness for C1: a 3-byte buffer is programmed as one word, padded with five `0xFF`. -/
theorem C1_flash_write_packs_buffer_witness :
    (∀ i (h : i < [1, 2, 3].length),
        deref (fun i => [1, 2, 3].getD i 0) i = [1, 2, 3][i]) ∧
    (programmedWords (issued State.init (OPENBL_FLASH_Write 0x08000000
        (some (fun i => [1, 2, 3].getD i 0)) 3 State.init))).length = 1 ∧
    (programmedWords (issued State.init (OPENBL_FLASH_Write 0x08000000
        (some (fun i => [1, 2, 3].getD i 0)) 3 State.init))).flatMap (bytesLE 8)
      = [1, 2, 3, 0xFF, 0xFF, 0xFF, 0xFF, 0xFF] :=
  ⟨by decide,
    C1_flash_write_packs_buffer 0x08000000 (fun i => [1, 2, 3].getD i 0) [1, 2, 3] State.init
      (by decide)⟩

/-! ## Page erase: the loop -/

theorem failedErases_cons_erase (i : FLASH_EraseInitTypeDef) (r : HAL_StatusTypeDef)
    (ops : List Op) :
    failedErases (Op.HAL_FLASHEx_Erase i r :: ops) =
      (if r ≠ .HAL_OK then 1 else 0) + failedErases ops := by
  by_cases h : r = .HAL_OK
  · simp [failedErases, eraseCalls, h]
  · simp [failedErases, eraseCalls, h, Nat.add_comm]

theorem failedErases_le (hw : Platform) (n : Nat) : ∀ (init : FLASH_EraseInitTypeDef)
    (tr : List Op) (p : BytePtr), failedErases (pageEraseOps hw init tr p n) ≤ n := by
  induction n with
  | zero => intro init tr p; simp [pageEraseOps, failedErases, eraseCalls]
  | succ n ih =>
    intro init tr p
    simp only [pageEraseOps]
    rw [failedErases_cons_erase]
    have := ih { init with Page := some (derefU16 p) }
      (tr ++ [Op.HAL_FLASHEx_Erase { init with Page := some (derefU16 p) }
        (hw.HAL_FLASHEx_Erase tr { init with Page := some (derefU16 p) })]) (ptrAdd p 2)
    split <;> omega

theorem erase_loop_eq (hw : Platform) (pn DL : Nat) (n : Nat) :
    ∀ (c : Nat) (p : BytePtr) (e : Nat) (init : FLASH_EraseInitTypeDef) (s : State),
      min pn (DL / 2) - c = n → e + n < 2 ^ 32 →
      OPENBL_FLASH_Erase_loop hw pn DL c p .SUCCESS e init s =
        (e + failedErases (pageEraseOps hw init s.trace p n),
          { s with trace := s.trace ++ pageEraseOps hw init s.trace p n }) := by
  induction n with
  | zero =>
    intro c p e init s hn _
    rw [OPENBL_FLASH_Erase_loop]
    have hc : ¬ (c < pn ∧ c < DL / 2) := by omega
    simp [hc, pageEraseOps, failedErases, eraseCalls]
  | succ n ih =>
    intro c p e init s hn he
    rw [OPENBL_FLASH_Erase_loop]
    have hc : c < pn ∧ c < DL / 2 := by omega
    have hle := failedErases_le hw n { init with Page := some (derefU16 p) }
      (s.trace ++ [Op.HAL_FLASHEx_Erase { init with Page := some (derefU16 p) }
        (hw.HAL_FLASHEx_Erase s.trace { init with Page := some (derefU16 p) })]) (ptrAdd p 2)
    simp only [hc, and_self, ↓reduceDIte, ne_eq, reduceCtorEq, not_false_eq_true, ↓reduceIte]
    by_cases hr : hw.HAL_FLASHEx_Erase s.trace { init with Page := some (derefU16 p) } = .HAL_OK
    · rw [ih (c + 1) (ptrAdd p 2) _ _ _ (by omega) (by simp [HAL_FLASHEx_Erase, hr]; omega)]
      simp only [pageEraseOps]
      rw [failedErases_cons_erase]
      simp [HAL_FLASHEx_Erase, hr, emit]
    · rw [ih (c + 1) (ptrAdd p 2) _ _ _ (by omega) (by
        simp only [HAL_FLASHEx_Erase, hr, ne_eq, not_false_eq_true, ↓reduceIte]
        have := Nat.mod_le (e + 1) (2 ^ 32)
        omega)]
      simp only [pageEraseOps]
      rw [failedErases_cons_erase]
      have hmod : (e + 1) % 4294967296 = e + 1 := Nat.mod_eq_of_lt (by omega)
      simp [HAL_FLASHEx_Erase, hr, emit, hmod, Nat.add_assoc]

/-! ## Page erase: the whole function -/

theorem derefU16_lt (p : BytePtr) : derefU16 p < 65536 := by
  have h0 : deref p 0 < 256 := Nat.mod_lt _ (by decide)
  have h1 : deref p 1 < 256 := Nat.mod_lt _ (by decide)
  simp only [derefU16]
  omega

theorem OPENBL_FLASH_Erase_eq (hw : Platform) (p : BytePtr) (DL : Nat) (s : State) :
    OPENBL_FLASH_Erase hw p DL s =
      (if failedErases (eraseRequestOps hw p DL s) > 0 then .ERROR else .SUCCESS,
        { s with trace := s.trace ++ ([Op.HAL_FLASH_Unlock, Op.CLEAR_FLAG_ALL_ERRORS] ++
            eraseRequestOps hw p DL s ++ [Op.HAL_FLASH_Lock]) }) := by
  have hp := derefU16_lt p
  have hl := erase_loop_eq hw (derefU16 p) DL (min (derefU16 p) (DL / 2)) 0 (ptrAdd p 2) 0
    { TypeErase := some .FLASH_TYPEERASE_PAGES, NbPages := some 1 }
    (emit .CLEAR_FLAG_ALL_ERRORS (OPENBL_FLASH_Unlock s)) (by omega) (by omega)
  have htr : (emit .CLEAR_FLAG_ALL_ERRORS (OPENBL_FLASH_Unlock s)).trace =
      s.trace ++ [Op.HAL_FLASH_Unlock, Op.CLEAR_FLAG_ALL_ERRORS] := by
    simp [emit, OPENBL_FLASH_Unlock]
  rw [htr] at hl
  simp only [OPENBL_FLASH_Erase, hl, eraseRequestOps, Nat.zero_add]
  split <;> simp [OPENBL_FLASH_Lock, emit, OPENBL_FLASH_Unlock]

theorem eraseCalls_pageEraseOps_length (hw : Platform) (n : Nat) :
    ∀ (init : FLASH_EraseInitTypeDef) (tr : List Op) (p : BytePtr),
      (eraseCalls (pageEraseOps hw init tr p n)).length = n := by
  induction n with
  | zero => intro init tr p; simp [pageEraseOps, eraseCalls]
  | succ n ih =>
    intro init tr p
    have := ih { init with Page := some (derefU16 p) }
      (tr ++ [Op.HAL_FLASHEx_Erase { init with Page := some (derefU16 p) }
        (hw.HAL_FLASHEx_Erase tr { init with Page := some (derefU16 p) })]) (ptrAdd p 2)
    simp only [pageEraseOps, eraseCalls, List.filterMap_cons, List.length_cons] at *
    omega

theorem eraseCalls_issued_Erase (hw : Platform) (p : BytePtr) (DL : Nat) (s : State) :
    eraseCalls (issued s (OPENBL_FLASH_Erase hw p DL s).2) =
      eraseCalls (eraseRequestOps hw p DL s) := by
  rw [OPENBL_FLASH_Erase_eq]
  rw [issued_append s _ _ rfl]
  simp [eraseCalls, List.filterMap_append]

theorem failedErases_pos_iff (ops : List Op) :
    failedErases ops > 0 ↔ ∃ c ∈ eraseCalls ops, c.2 ≠ .HAL_OK := by
  simp only [failedErases, gt_iff_lt, List.length_pos_iff_exists_mem, List.mem_filter,
    decide_eq_true_eq]

/-- C9: `OPENBL_FLASH_Erase` calls the erase primitive once for every page it
iterates over, `min(count, DataLength / 2)` of them, whatever the earlier calls
reported, and returns `ERROR` exactly when one of these calls reported a status
other than `HAL_OK`, `SUCCESS` otherwise. -/
theorem C9_erase_counts_failures (hw : Platform) (p_Data : BytePtr) (DataLength : Nat)
    (s : State) :
    (eraseCalls (issued s (OPENBL_FLASH_Erase hw p_Data DataLength s).2)).length =
      min (derefU16 p_Data) (DataLength / 2) ∧
    ((OPENBL_FLASH_Erase hw p_Data DataLength s).1 = .ERROR ↔
      ∃ c ∈ eraseCalls (issued s (OPENBL_FLASH_Erase hw p_Data DataLength s).2),
        c.2 ≠ .HAL_OK) ∧
    ((OPENBL_FLASH_Erase hw p_Data DataLength s).1 = .SUCCESS ↔
      ∀ c ∈ eraseCalls (issued s (OPENBL_FLASH_Erase hw p_Data DataLength s).2),
        c.2 = .HAL_OK) := by
  rw [eraseCalls_issued_Erase]
  have hpos := failedErases_pos_iff (eraseRequestOps hw p_Data DataLength s)
  refine ⟨?_, ?_, ?_⟩
  · exact eraseCalls_pageEraseOps_length hw _ _ _ _
  · rw [OPENBL_FLASH_Erase_eq, ← hpos]
    by_cases h : failedErases (eraseRequestOps hw p_Data DataLength s) > 0 <;> simp [h]
  · rw [OPENBL_FLASH_Erase_eq]
    by_cases h : failedErases (eraseRequestOps hw p_Data DataLength s) > 0
    · have h2 := hpos.mp h
      simp only [h, ↓reduceIte, reduceCtorEq, false_iff, not_forall]
      obtain ⟨c, hc, hne⟩ := h2
      exact ⟨c, hc, hne⟩
    · have h2 : ¬ ∃ c ∈ eraseCalls (eraseRequestOps hw p_Data DataLength s), c.2 ≠ .HAL_OK :=
        fun hx => h (hpos.mpr hx)
      simp only [h, ↓reduceIte, true_iff]
      intro c hc
      by_contra hne
      exact h2 ⟨c, hc, hne⟩

theorem eraseCalls_pageEraseOps_get (hw : Platform) (n : Nat) :
    ∀ (init : FLASH_EraseInitTypeDef) (tr : List Op) (p : BytePtr) (k : Nat), k < n →
      ∃ st, (eraseCalls (pageEraseOps hw init tr p n))[k]? =
        some ({ TypeErase := init.TypeErase, Page := some (derefU16 (ptrAdd p (2 * k))),
                NbPages := init.NbPages }, st) := by
  induction n with
  | zero => intro init tr p k hk; omega
  | succ n ih =>
    intro init tr p k hk
    cases k with
    | zero =>
      refine ⟨hw.HAL_FLASHEx_Erase tr { init with Page := some (derefU16 p) }, ?_⟩
      simp [pageEraseOps, eraseCalls, ptrAdd_zero]
    | succ k =>
      obtain ⟨st, h⟩ := ih { init with Page := some (derefU16 p) }
        (tr ++ [Op.HAL_FLASHEx_Erase { init with Page := some (derefU16 p) }
          (hw.HAL_FLASHEx_Erase tr { init with Page := some (derefU16 p) })]) (ptrAdd p 2) k
        (by omega)
      refine ⟨st, ?_⟩
      rw [ptrAdd_ptrAdd] at h
      have e : 2 * (k + 1) = 2 + 2 * k := by omega
      rw [e]
      simpa [pageEraseOps, eraseCalls] using h

/-- C2 (evaluation at the failing input): on the 4-byte request that declares two
pages and holds one, page 5, with `DataLength = 4`, `OPENBL_FLASH_Erase` calls the
erase primitive twice; the second page number is read from bytes 4 and 5, behind
the request buffer. -/
theorem C2_erase_short_request_overruns (hw : Platform) (behind : Nat → Nat) (s : State) :
    (eraseCalls (issued s (OPENBL_FLASH_Erase hw
        (fun i => if i < 4 then [2, 0, 5, 0].getD i 0 else behind i) 4 s).2)).map
          (fun c => c.1.Page)
      = [some 5, some (behind 4 % 256 + 256 * (behind 5 % 256))] := by
  rw [eraseCalls_issued_Erase]
  simp [eraseRequestOps, pageEraseOps, eraseCalls, derefU16, deref, ptrAdd]

/-- C10 (evaluation on the code): `OPENBL_FLASH_Erase` compares no page number with
`FLASH_PAGE_MAX_NUMBER`, and nothing sets `status` to `ERROR` before the test
`status != ERROR` in its loop. The one-page request for page 200, above
`FLASH_PAGE_MAX_NUMBER`, served by a platform that reports `HAL_OK`, returns
`SUCCESS`, and page number 200 is what the erase primitive is called with. -/
theorem C10_erase_accepts_page_200 :
    (OPENBL_FLASH_Erase platformOK (fun i => [1, 0, 200, 0].getD i 0) 4 State.init).1 = .SUCCESS ∧
    FLASH_PAGE_MAX_NUMBER < 200 ∧
    (eraseCalls (issued State.init
        (OPENBL_FLASH_Erase platformOK (fun i => [1, 0, 200, 0].getD i 0) 4 State.init).2)).map
          (fun c => c.1.Page) = [some 200] := by
  refine ⟨?_, by decide, ?_⟩
  · rw [OPENBL_FLASH_Erase_eq]
    simp [eraseRequestOps, pageEraseOps, failedErases, eraseCalls, derefU16, deref, ptrAdd,
      platformOK]
  · rw [eraseCalls_issued_Erase]
    simp [eraseRequestOps, pageEraseOps, eraseCalls, derefU16, deref, ptrAdd, State.init]

/-! ## Mass erase -/

/-- C3: `OPENBL_FLASH_MassErase` returns `SUCCESS` exactly when `DataLength >= 2` and
the erase primitive reports `HAL_OK`, `ERROR` otherwise; it does not call the
primitive when `DataLength < 2` and calls it exactly once, for a mass erase, when
`DataLength >= 2`. -/
theorem C3_mass_erase_status (hw : Platform) (p_Data : BytePtr) (DataLength : Nat) (s : State) :
    ((OPENBL_FLASH_MassErase hw p_Data DataLength s).1 = .SUCCESS ↔
      2 ≤ DataLength ∧
        hw.HAL_FLASHEx_Erase (s.trace ++ [.HAL_FLASH_Unlock, .CLEAR_FLAG_ALL_ERRORS])
          { TypeErase := some .FLASH_TYPEERASE_MASSERASE } = .HAL_OK) ∧
    ((OPENBL_FLASH_MassErase hw p_Data DataLength s).1 = .ERROR ↔
      DataLength < 2 ∨
        hw.HAL_FLASHEx_Erase (s.trace ++ [.HAL_FLASH_Unlock, .CLEAR_FLAG_ALL_ERRORS])
          { TypeErase := some .FLASH_TYPEERASE_MASSERASE } ≠ .HAL_OK) ∧
    eraseCalls (issued s (OPENBL_FLASH_MassErase hw p_Data DataLength s).2) =
      (if DataLength < 2 then []
       else [({ TypeErase := some .FLASH_TYPEERASE_MASSERASE },
          hw.HAL_FLASHEx_Erase (s.trace ++ [.HAL_FLASH_Unlock, .CLEAR_FLAG_ALL_ERRORS])
            { TypeErase := some .FLASH_TYPEERASE_MASSERASE })]) := by
  by_cases hd : 2 ≤ DataLength
  · have hd2 : ¬ DataLength < 2 := by omega
    by_cases hr : hw.HAL_FLASHEx_Erase (s.trace ++ [.HAL_FLASH_Unlock, .CLEAR_FLAG_ALL_ERRORS])
        { TypeErase := some .FLASH_TYPEERASE_MASSERASE } = .HAL_OK
    · simp [OPENBL_FLASH_MassErase, HAL_FLASHEx_Erase, OPENBL_FLASH_Unlock, OPENBL_FLASH_Lock,
        emit, issued, eraseCalls, hd, hd2, hr]
    · simp [OPENBL_FLASH_MassErase, HAL_FLASHEx_Erase, OPENBL_FLASH_Unlock, OPENBL_FLASH_Lock,
        emit, issued, eraseCalls, hd, hd2, hr]
  · have hd2 : DataLength < 2 := by omega
    simp [OPENBL_FLASH_MassErase, OPENBL_FLASH_Unlock, OPENBL_FLASH_Lock,
      emit, issued, eraseCalls, hd, hd2]

/-! ## Write protection and read-out protection -/

/-- C4: `OPENBL_FLASH_SetWriteProtection(DISABLE, ...)` issues exactly two
option-program operations, both of type write protection: slot A with start offset
`0x7F` and end offset `0`, then slot B with the same pair, whatever the prior state,
the page list and the length; `0x7F` is `FLASH_PAGE_MAX_NUMBER`, the maximum page
index `FLASH_PAGE_NUMBER - 1`. -/
theorem C4_disable_write_protection (hw : Platform) (ListOfPages : BytePtr) (Length : Nat)
    (s : State) :
    (obProgramCalls (issued s
        (OPENBL_FLASH_SetWriteProtection hw .DISABLE ListOfPages Length s).2)).map Prod.fst =
      [wrpRequest .OB_WRPAREA_BANK1_AREAA 0x7F 0, wrpRequest .OB_WRPAREA_BANK1_AREAB 0x7F 0] ∧
    FLASH_PAGE_MAX_NUMBER = 0x7F ∧ 0x7F = FLASH_PAGE_NUMBER - 1 := by
  refine ⟨?_, rfl, rfl⟩
  simp [OPENBL_FLASH_SetWriteProtection, OPENBL_FLASH_DisableWriteProtection,
    HAL_FLASHEx_OBProgram, Common_SetPostProcessingCallback, OPENBL_FLASH_OB_Unlock, emit,
    issued, obProgramCalls, wrpRequest, FLASH_PAGE_MAX_NUMBER]

/-- C5: `OPENBL_FLASH_SetWriteProtection(ENABLE, list, Length)` issues no
option-program operation when `Length < 2`; exactly one, slot A with
`(list[0], list[1])`, when `2 <= Length < 4`; and exactly two when `Length >= 4`,
slot A followed by slot B with `(list[2], list[3])`. -/
theorem C5_enable_write_protection (hw : Platform) (ListOfPages : BytePtr) (Length : Nat)
    (s : State) :
    (obProgramCalls (issued s
        (OPENBL_FLASH_SetWriteProtection hw .ENABLE ListOfPages Length s).2)).map Prod.fst =
      (if Length < 2 then []
       else if Length < 4 then
        [wrpRequest .OB_WRPAREA_BANK1_AREAA (deref ListOfPages 0) (deref ListOfPages 1)]
       else
        [wrpRequest .OB_WRPAREA_BANK1_AREAA (deref ListOfPages 0) (deref ListOfPages 1),
         wrpRequest .OB_WRPAREA_BANK1_AREAB (deref ListOfPages 2) (deref ListOfPages 3)]) := by
  by_cases h2 : Length < 2
  · have h2a : ¬ 2 ≤ Length := by omega
    have h4a : ¬ 4 ≤ Length := by omega
    simp [OPENBL_FLASH_SetWriteProtection, OPENBL_FLASH_EnableWriteProtection,
      HAL_FLASHEx_OBProgram, Common_SetPostProcessingCallback, OPENBL_FLASH_OB_Unlock, emit,
      issued, obProgramCalls, wrpRequest, h2, h2a, h4a]
  · have h2a : 2 ≤ Length := by omega
    by_cases h4 : Length < 4
    · have h4a : ¬ 4 ≤ Length := by omega
      simp [OPENBL_FLASH_SetWriteProtection, OPENBL_FLASH_EnableWriteProtection,
        HAL_FLASHEx_OBProgram, Common_SetPostProcessingCallback, OPENBL_FLASH_OB_Unlock, emit,
        issued, obProgramCalls, wrpRequest, h2, h2a, h4, h4a]
    · have h4a : 4 ≤ Length := by omega
      simp [OPENBL_FLASH_SetWriteProtection, OPENBL_FLASH_EnableWriteProtection,
        HAL_FLASHEx_OBProgram, Common_SetPostProcessingCallback, OPENBL_FLASH_OB_Unlock, emit,
        issued, obProgramCalls, wrpRequest, h2, h2a, h4, h4a]

/-- C7: `OPENBL_FLASH_SetReadOutProtectionLevel(OB_RDP_LEVEL2)` leaves the whole state
unchanged, the log and the callback slot included; for every other level it issues
exactly one option-program operation, of type RDP and carrying that level, and
registers `OPENBL_OB_Launch` as the deferred callback exactly once. -/
theorem C7_set_rdp_level (hw : Platform) (Level : Nat) (s : State) :
    if Level = hw.OB_RDP_LEVEL2 then
      OPENBL_FLASH_SetReadOutProtectionLevel hw Level s = s
    else
      (obProgramCalls (issued s (OPENBL_FLASH_SetReadOutProtectionLevel hw Level s))).map
          Prod.fst = [{ OptionType := some .OPTIONBYTE_RDP, RDPLevel := some Level }] ∧
      callbackRegistrations (issued s (OPENBL_FLASH_SetReadOutProtectionLevel hw Level s)) =
        [.OPENBL_OB_Launch] ∧
      (OPENBL_FLASH_SetReadOutProtectionLevel hw Level s).PostProcessingCallback =
        some .OPENBL_OB_Launch := by
  by_cases h : Level = hw.OB_RDP_LEVEL2
  · simp [OPENBL_FLASH_SetReadOutProtectionLevel, h]
  · simp [OPENBL_FLASH_SetReadOutProtectionLevel, h, HAL_FLASHEx_OBProgram,
      Common_SetPostProcessingCallback, OPENBL_FLASH_OB_Unlock, emit, issued, obProgramCalls,
      callbackRegistrations]

/-! ## Option bytes: the busy-waits -/

theorem wait_stall (hw : Platform) (f : FLASH_Flag) (d : Nat) :
    ∀ (t : Nat) (s : State), hw.OPENBL_OB_TIMEOUT - t = d → t ≤ hw.OPENBL_OB_TIMEOUT →
      (∀ k, k ≤ d →
        hw.HAL_FLASH_GET_FLAG (s.trace ++ List.replicate k (.GET_FLAG f true)) f = true) →
      waitWhileSet hw f t s =
        .reset { s with trace := s.trace ++
          (List.replicate (d + 1) (.GET_FLAG f true) ++ [.NVIC_SystemReset]) } := by
  induction d with
  | zero =>
    intro t s hd ht hf
    have h0 := hf 0 (Nat.le_refl 0)
    simp only [List.replicate_zero, List.append_nil] at h0
    have hge : t ≥ hw.OPENBL_OB_TIMEOUT := by omega
    rw [waitWhileSet]
    simp [h0, hge, emit]
  | succ d ih =>
    intro t s hd ht hf
    have h0 := hf 0 (Nat.zero_le _)
    simp only [List.replicate_zero, List.append_nil] at h0
    have hlt : ¬ t ≥ hw.OPENBL_OB_TIMEOUT := by omega
    rw [waitWhileSet]
    simp only [h0, ↓reduceIte, hlt, ↓reduceDIte]
    rw [ih (t + 1) (emit (.GET_FLAG f true) s) (by omega) (by omega) (by
      intro k hk
      have := hf (k + 1) (by omega)
      simpa [emit, List.replicate_succ] using this)]
    simp [emit, List.replicate_succ]

theorem wait_cases (hw : Platform) (f : FLASH_Flag) (d : Nat) :
    ∀ (t : Nat) (s : State), hw.OPENBL_OB_TIMEOUT - t = d →
      (∃ j, j ≤ d ∧ waitWhileSet hw f t s =
        .returned { s with trace := s.trace ++
          (List.replicate j (.GET_FLAG f true) ++ [.GET_FLAG f false]) }) ∨
      (∃ j, j ≤ d + 1 ∧ waitWhileSet hw f t s =
        .reset { s with trace := s.trace ++
          (List.replicate j (.GET_FLAG f true) ++ [.NVIC_SystemReset]) }) := by
  induction d with
  | zero =>
    intro t s hd
    have hge : t ≥ hw.OPENBL_OB_TIMEOUT := by omega
    rw [waitWhileSet]
    by_cases h0 : hw.HAL_FLASH_GET_FLAG s.trace f = true
    · right
      exact ⟨1, by omega, by simp [h0, hge, emit]⟩
    · left
      exact ⟨0, by omega, by simp [h0, emit]⟩
  | succ d ih =>
    intro t s hd
    have hlt : ¬ t ≥ hw.OPENBL_OB_TIMEOUT := by omega
    rw [waitWhileSet]
    by_cases h0 : hw.HAL_FLASH_GET_FLAG s.trace f = true
    · simp only [h0, ↓reduceIte, hlt, ↓reduceDIte]
      rcases ih (t + 1) (emit (.GET_FLAG f true) s) (by omega) with ⟨j, hj, e⟩ | ⟨j, hj, e⟩
      · left
        exact ⟨j + 1, by omega, by rw [e]; simp [emit, List.replicate_succ]⟩
      · right
        exact ⟨j + 1, by omega, by rw [e]; simp [emit, List.replicate_succ]⟩
    · left
      exact ⟨0, by omega, by simp [h0, emit]⟩

/-! ## Option bytes: the register writes -/

theorem OPENBL_OB_Write_regs_frame (Data : BytePtr) (DL : Nat) (s : State) :
    ∃ ops, (OPENBL_OB_Write_regs Data DL s).trace = s.trace ++ ops ∧
      (OPENBL_OB_Write_regs Data DL s).OPTSTRT = s.OPTSTRT ∧
      (OPENBL_OB_Write_regs Data DL s).PostProcessingCallback = s.PostProcessingCallback ∧
      writtenRegs ops = optionFields.filter (fun r => fieldCovered r DL) ∧
      callbackRegistrations ops = [] ∧ setsOptStrt ops = false ∧ pollCount ops = 0 := by
  by_cases c1 : DL ≥ 1 <;> by_cases c8 : DL > 8 <;> (try omega) <;>
  by_cases c16 : DL > 16 <;> (try omega) <;>
  by_cases c24 : DL > 24 <;> (try omega) <;>
  by_cases c32 : DL > 32 <;> (try omega) <;>
  by_cases c40 : DL > 40 <;> (try omega) <;>
  by_cases c48 : DL > 48 <;> (try omega) <;>
  by_cases c104 : DL > 104 <;> (try omega) <;>
  exact ⟨_, by
      simp only [OPENBL_OB_Write_regs, WRITE_REG, emit, c1, c8, c16, c24, c32, c40, c48, c104,
        ↓reduceIte, List.append_assoc]
      rfl, by
      simp [OPENBL_OB_Write_regs, WRITE_REG, emit, c1, c8, c16, c24, c32, c40, c48, c104], by
      simp [OPENBL_OB_Write_regs, WRITE_REG, emit, c1, c8, c16, c24, c32, c40, c48, c104], by
      simp [writtenRegs, optionFields, fieldCovered, fieldOffset, c1, c8, c16, c24, c32, c40,
        c48, c104], by
      simp [callbackRegistrations], by
      simp [setsOptStrt], by
      simp [pollCount]⟩

theorem OPENBL_OB_Write_regs_regs (Data : BytePtr) (DL : Nat) (s : State) (r : Reg) :
    fieldCovered r DL = true ∨ (OPENBL_OB_Write_regs Data DL s).regs r = s.regs r := by
  by_cases c1 : DL ≥ 1 <;> by_cases c8 : DL > 8 <;> (try omega) <;>
  by_cases c16 : DL > 16 <;> (try omega) <;>
  by_cases c24 : DL > 24 <;> (try omega) <;>
  by_cases c32 : DL > 32 <;> (try omega) <;>
  by_cases c40 : DL > 40 <;> (try omega) <;>
  by_cases c48 : DL > 48 <;> (try omega) <;>
  by_cases c104 : DL > 104 <;> (try omega) <;>
  cases r <;>
  simp [OPENBL_OB_Write_regs, WRITE_REG, emit, fieldCovered, fieldOffset, c1, c8, c16, c24,
    c32, c40, c48, c104]

/-! ## Option bytes: the commit sequence -/

theorem writtenRegs_polls (f : FLASH_Flag) (v : Bool) (j : Nat) (rest : List Op) :
    writtenRegs (List.replicate j (.GET_FLAG f v) ++ rest) = writtenRegs rest := by
  induction j with
  | zero => simp
  | succ j ih => simp [List.replicate_succ, writtenRegs] at *

theorem callbackRegistrations_polls (f : FLASH_Flag) (v : Bool) (j : Nat) (rest : List Op) :
    callbackRegistrations (List.replicate j (.GET_FLAG f v) ++ rest) =
      callbackRegistrations rest := by
  induction j with
  | zero => simp
  | succ j ih => simp [List.replicate_succ, callbackRegistrations] at *

theorem setsOptStrt_polls (f : FLASH_Flag) (v : Bool) (j : Nat) (rest : List Op) :
    setsOptStrt (List.replicate j (.GET_FLAG f v) ++ rest) = setsOptStrt rest := by
  induction j with
  | zero => simp
  | succ j ih => simp [List.replicate_succ, setsOptStrt] at *

theorem pollCount_polls (f : FLASH_Flag) (v : Bool) (j : Nat) (rest : List Op) :
    pollCount (List.replicate j (.GET_FLAG f v) ++ rest) = j + pollCount rest := by
  induction j with
  | zero => simp
  | succ j ih =>
    simp only [pollCount, List.replicate_succ, List.cons_append, List.filter_cons,
      ↓reduceIte, List.length_cons] at *
    omega

theorem pollCount_append (a b : List Op) : pollCount (a ++ b) = pollCount a + pollCount b := by
  simp [pollCount]

theorem wait_frame (hw : Platform) (f : FLASH_Flag) (s : State) :
    ∃ ops, (waitWhileSet hw f 0 s).state = { s with trace := s.trace ++ ops } ∧
      writtenRegs ops = [] ∧ callbackRegistrations ops = [] ∧ setsOptStrt ops = false ∧
      pollCount ops ≤ hw.OPENBL_OB_TIMEOUT + 1 := by
  rcases wait_cases hw f hw.OPENBL_OB_TIMEOUT 0 s rfl with ⟨j, hj, e⟩ | ⟨j, hj, e⟩
  · refine ⟨_, by rw [e]; rfl, ?_, ?_, ?_, ?_⟩
    · rw [writtenRegs_polls]; rfl
    · rw [callbackRegistrations_polls]; rfl
    · rw [setsOptStrt_polls]; rfl
    · rw [pollCount_polls]; simp [pollCount]; omega
  · refine ⟨_, by rw [e]; rfl, ?_, ?_, ?_, ?_⟩
    · rw [writtenRegs_polls]; rfl
    · rw [callbackRegistrations_polls]; rfl
    · rw [setsOptStrt_polls]; rfl
    · rw [pollCount_polls]; simp [pollCount]; omega

theorem commit_of_reset1 (hw : Platform) (s s1 : State)
    (h1 : waitWhileSet hw .FLASH_FLAG_BSY 0 s = .reset s1) :
    OPENBL_OB_Write_commit hw s = .reset s1 := by
  simp only [OPENBL_OB_Write_commit, h1]

theorem commit_of_reset2 (hw : Platform) (s s1 s2 : State)
    (h1 : waitWhileSet hw .FLASH_FLAG_BSY 0 s = .returned s1)
    (h2 : waitWhileSet hw .FLASH_FLAG_PESD 0 s1 = .reset s2) :
    OPENBL_OB_Write_commit hw s = .reset s2 := by
  simp only [OPENBL_OB_Write_commit, h1, h2]

theorem commit_of_reset3 (hw : Platform) (s s1 s2 s3 : State)
    (h1 : waitWhileSet hw .FLASH_FLAG_BSY 0 s = .returned s1)
    (h2 : waitWhileSet hw .FLASH_FLAG_PESD 0 s1 = .returned s2)
    (h3 : waitWhileSet hw .FLASH_FLAG_BSY 0 (SET_BIT_CR_OPTSTRT s2) = .reset s3) :
    OPENBL_OB_Write_commit hw s = .reset s3 := by
  simp only [OPENBL_OB_Write_commit, h1, h2, h3]

theorem commit_of_returned (hw : Platform) (s s1 s2 s3 : State)
    (h1 : waitWhileSet hw .FLASH_FLAG_BSY 0 s = .returned s1)
    (h2 : waitWhileSet hw .FLASH_FLAG_PESD 0 s1 = .returned s2)
    (h3 : waitWhileSet hw .FLASH_FLAG_BSY 0 (SET_BIT_CR_OPTSTRT s2) = .returned s3) :
    OPENBL_OB_Write_commit hw s =
      .returned (Common_SetPostProcessingCallback .OPENBL_OB_Launch s3) := by
  simp only [OPENBL_OB_Write_commit, h1, h2, h3]

theorem commit_frame (hw : Platform) (s : State) :
    ∃ ops, (OPENBL_OB_Write_commit hw s).state.trace = s.trace ++ ops ∧
      (OPENBL_OB_Write_commit hw s).state.regs = s.regs ∧
      writtenRegs ops = [] ∧ pollCount ops ≤ 3 * (hw.OPENBL_OB_TIMEOUT + 1) := by
  obtain ⟨o1, e1, w1, -, -, p1⟩ := wait_frame hw .FLASH_FLAG_BSY s
  cases h1 : waitWhileSet hw .FLASH_FLAG_BSY 0 s with
  | reset s1 =>
    rw [h1] at e1
    simp only [Outcome.state] at e1
    rw [commit_of_reset1 hw s s1 h1]
    refine ⟨o1, by simp [Outcome.state, e1], by simp [Outcome.state, e1], w1, by omega⟩
  | returned s1 =>
    rw [h1] at e1
    simp only [Outcome.state] at e1
    obtain ⟨o2, e2, w2, -, -, p2⟩ := wait_frame hw .FLASH_FLAG_PESD s1
    cases h2 : waitWhileSet hw .FLASH_FLAG_PESD 0 s1 with
    | reset s2 =>
      rw [h2] at e2
      simp only [Outcome.state] at e2
      rw [commit_of_reset2 hw s s1 s2 h1 h2]
      refine ⟨o1 ++ o2, by simp [Outcome.state, e2, e1], by simp [Outcome.state, e2, e1], by
        simp [writtenRegs, List.filterMap_append] at *; exact ⟨w1, w2⟩, by
        rw [pollCount_append]; omega⟩
    | returned s2 =>
      rw [h2] at e2
      simp only [Outcome.state] at e2
      obtain ⟨o3, e3, w3, -, -, p3⟩ := wait_frame hw .FLASH_FLAG_BSY (SET_BIT_CR_OPTSTRT s2)
      have hw3 : writtenRegs (o1 ++ o2 ++ [Op.SET_BIT_CR_OPTSTRT] ++ o3) = [] := by
        simp [writtenRegs, List.filterMap_append] at *
        exact ⟨w1, w2, w3⟩
      have hp3 : pollCount (o1 ++ o2 ++ [Op.SET_BIT_CR_OPTSTRT] ++ o3) ≤
          3 * (hw.OPENBL_OB_TIMEOUT + 1) := by
        rw [pollCount_append, pollCount_append, pollCount_append]
        have : pollCount [Op.SET_BIT_CR_OPTSTRT] = 0 := rfl
        omega
      cases h3 : waitWhileSet hw .FLASH_FLAG_BSY 0 (SET_BIT_CR_OPTSTRT s2) with
      | reset s3 =>
        rw [h3] at e3
        simp only [Outcome.state] at e3
        rw [commit_of_reset3 hw s s1 s2 s3 h1 h2 h3]
        refine ⟨o1 ++ o2 ++ [Op.SET_BIT_CR_OPTSTRT] ++ o3, by
          simp [Outcome.state, e3, e2, e1, SET_BIT_CR_OPTSTRT, emit], by
          simp [Outcome.state, e3, e2, e1, SET_BIT_CR_OPTSTRT, emit], hw3, hp3⟩
      | returned s3 =>
        rw [h3] at e3
        simp only [Outcome.state] at e3
        rw [commit_of_returned hw s s1 s2 s3 h1 h2 h3]
        refine ⟨o1 ++ o2 ++ [Op.SET_BIT_CR_OPTSTRT] ++ o3 ++
          [Op.Common_SetPostProcessingCallback .OPENBL_OB_Launch], by
          simp [Outcome.state, e3, e2, e1, SET_BIT_CR_OPTSTRT, emit,
            Common_SetPostProcessingCallback], by
          simp [Outcome.state, e3, e2, e1, SET_BIT_CR_OPTSTRT, emit,
            Common_SetPostProcessingCallback], by
          simp only [writtenRegs, List.filterMap_append] at *
          rw [hw3]; rfl, by
          rw [pollCount_append]
          have : pollCount [Op.Common_SetPostProcessingCallback .OPENBL_OB_Launch] = 0 := rfl
          omega⟩

/-! ## Option bytes: the whole function -/

/-- C6: `OPENBL_OB_Write` writes the register of a field exactly when the buffer
length covers the field (`DataLength >= 1` for `OPTR` at offset 0, `DataLength > o`
for the field at offset `o` in 8, 16, 24, 32, 40, 48, 104), each once and in field
order; a register whose field is not covered keeps its value. Length 5 writes only
`OPTR`, length 9 only `OPTR` and `PCROP1ASR`. This holds however the call ends. -/
theorem C6_ob_write_covered_fields (hw : Platform) (Address : Nat) (Data : BytePtr)
    (DataLength : Nat) (s : State) :
    writtenRegs (issued s (OPENBL_OB_Write hw Address Data DataLength s).state) =
      optionFields.filter (fun r => fieldCovered r DataLength) ∧
    (∀ r, r ∈ writtenRegs (issued s (OPENBL_OB_Write hw Address Data DataLength s).state) ↔
      fieldCovered r DataLength = true) ∧
    (∀ r, fieldCovered r DataLength = true ∨
      (OPENBL_OB_Write hw Address Data DataLength s).state.regs r = s.regs r) ∧
    optionFields.filter (fun r => fieldCovered r 5) = [.OPTR] ∧
    optionFields.filter (fun r => fieldCovered r 9) = [.OPTR, .PCROP1ASR] := by
  obtain ⟨ops0, t0, -, -, w0, -, -, -⟩ := OPENBL_OB_Write_regs_frame Data DataLength s
  obtain ⟨ops1, t1, r1, w1, -⟩ := commit_frame hw (OPENBL_OB_Write_regs Data DataLength s)
  have hi : issued s (OPENBL_OB_Write hw Address Data DataLength s).state = ops0 ++ ops1 := by
    apply issued_append
    simp only [OPENBL_OB_Write]
    rw [t1, t0, List.append_assoc]
  have hwr : writtenRegs (ops0 ++ ops1) =
      optionFields.filter (fun r => fieldCovered r DataLength) := by
    have : writtenRegs (ops0 ++ ops1) = writtenRegs ops0 ++ writtenRegs ops1 := by
      simp [writtenRegs, List.filterMap_append]
    rw [this, w0, w1, List.append_nil]
  rw [hi, hwr]
  refine ⟨rfl, ?_, ?_, by decide, by decide⟩
  · intro r
    simp only [List.mem_filter, optionFields, and_iff_right_iff_imp]
    intro _
    cases r <;> simp
  · intro r
    simp only [OPENBL_OB_Write]
    rw [r1]
    exact OPENBL_OB_Write_regs_regs Data DataLength s r

theorem stall_reset (hw : Platform) (f : FLASH_Flag) (s : State) (h : stalls hw f s.trace) :
    waitWhileSet hw f 0 s =
      .reset { s with trace := s.trace ++
        (List.replicate (hw.OPENBL_OB_TIMEOUT + 1) (.GET_FLAG f true) ++
          [.NVIC_SystemReset]) } :=
  wait_stall hw f hw.OPENBL_OB_TIMEOUT 0 s rfl (Nat.zero_le _) h

theorem callbackRegistrations_append (a b : List Op) :
    callbackRegistrations (a ++ b) = callbackRegistrations a ++ callbackRegistrations b := by
  simp [callbackRegistrations, List.filterMap_append]

theorem setsOptStrt_append (a b : List Op) :
    setsOptStrt (a ++ b) = (setsOptStrt a || setsOptStrt b) := by
  simp [setsOptStrt]

theorem returned_frame (hw : Platform) (f : FLASH_Flag) (s s1 : State)
    (h : waitWhileSet hw f 0 s = .returned s1) :
    ∃ ops, s1 = { s with trace := s.trace ++ ops } ∧ callbackRegistrations ops = [] ∧
      setsOptStrt ops = false := by
  obtain ⟨ops, e, -, c, o, -⟩ := wait_frame hw f s
  rw [h] at e
  exact ⟨ops, e, c, o⟩

theorem resetOnStall_of_stall (hw : Platform) (f : FLASH_Flag) (s t : State) (pre : List Op)
    (out : Outcome) (ht : t.trace = s.trace ++ pre)
    (hcb : t.PostProcessingCallback = s.PostProcessingCallback)
    (hpre : callbackRegistrations pre = [])
    (hout : out = .reset { t with trace := t.trace ++
      (List.replicate (hw.OPENBL_OB_TIMEOUT + 1) (.GET_FLAG f true) ++ [.NVIC_SystemReset]) }) :
    resetOnStall hw f s out := by
  subst hout
  have hi : issued s (Outcome.reset { t with trace := t.trace ++
      (List.replicate (hw.OPENBL_OB_TIMEOUT + 1) (.GET_FLAG f true) ++
        [.NVIC_SystemReset]) }).state =
      pre ++ (List.replicate (hw.OPENBL_OB_TIMEOUT + 1) (.GET_FLAG f true) ++
        [.NVIC_SystemReset]) := by
    apply issued_append
    simp only [Outcome.state]
    rw [ht, List.append_assoc]
  refine ⟨rfl, ?_, hcb, ?_⟩
  · rw [hi]
    exact List.suffix_append _ _
  · rw [hi, callbackRegistrations_append, hpre, callbackRegistrations_polls]
    rfl

theorem optStrtUntouched_of_stall (hw : Platform) (f : FLASH_Flag) (s t : State)
    (pre : List Op) (out : Outcome) (ht : t.trace = s.trace ++ pre)
    (ho : t.OPTSTRT = s.OPTSTRT) (hpre : setsOptStrt pre = false)
    (hout : out = .reset { t with trace := t.trace ++
      (List.replicate (hw.OPENBL_OB_TIMEOUT + 1) (.GET_FLAG f true) ++ [.NVIC_SystemReset]) }) :
    optStrtUntouched s out := by
  subst hout
  have hi : issued s (Outcome.reset { t with trace := t.trace ++
      (List.replicate (hw.OPENBL_OB_TIMEOUT + 1) (.GET_FLAG f true) ++
        [.NVIC_SystemReset]) }).state =
      pre ++ (List.replicate (hw.OPENBL_OB_TIMEOUT + 1) (.GET_FLAG f true) ++
        [.NVIC_SystemReset]) := by
    apply issued_append
    simp only [Outcome.state]
    rw [ht, List.append_assoc]
  refine ⟨?_, ho⟩
  rw [hi, setsOptStrt_append, hpre, setsOptStrt_polls]
  rfl

/-- C8: in `OPENBL_OB_Write`, with `T = OPENBL_OB_TIMEOUT`, a flag that reads set on
`T + 1` consecutive polls of a busy-wait ends the call in the system reset on that
poll, with no normal return and no callback registered: for the wait on BSY before
the commit and for the wait on PESD, without the option start bit ever being set;
for the wait on BSY after the commit as well. Every call ends, whatever the flags
do, after at most `3 * (T + 1)` polls. -/
theorem C8_ob_write_stall_resets (hw : Platform) (Address : Nat) (Data : BytePtr)
    (DataLength : Nat) (s : State) :
    pollCount (issued s (OPENBL_OB_Write hw Address Data DataLength s).state) ≤
      3 * (hw.OPENBL_OB_TIMEOUT + 1) ∧
    (stalls hw .FLASH_FLAG_BSY (OPENBL_OB_Write_regs Data DataLength s).trace →
      resetOnStall hw .FLASH_FLAG_BSY s (OPENBL_OB_Write hw Address Data DataLength s) ∧
      optStrtUntouched s (OPENBL_OB_Write hw Address Data DataLength s)) ∧
    (∀ s1, waitWhileSet hw .FLASH_FLAG_BSY 0 (OPENBL_OB_Write_regs Data DataLength s)
        = .returned s1 →
      stalls hw .FLASH_FLAG_PESD s1.trace →
      resetOnStall hw .FLASH_FLAG_PESD s (OPENBL_OB_Write hw Address Data DataLength s) ∧
      optStrtUntouched s (OPENBL_OB_Write hw Address Data DataLength s)) ∧
    (∀ s1 s2, waitWhileSet hw .FLASH_FLAG_BSY 0 (OPENBL_OB_Write_regs Data DataLength s)
        = .returned s1 →
      waitWhileSet hw .FLASH_FLAG_PESD 0 s1 = .returned s2 →
      stalls hw .FLASH_FLAG_BSY (SET_BIT_CR_OPTSTRT s2).trace →
      resetOnStall hw .FLASH_FLAG_BSY s (OPENBL_OB_Write hw Address Data DataLength s)) := by
  obtain ⟨ops0, t0, o0, c0, -, cb0, so0, p0⟩ := OPENBL_OB_Write_regs_frame Data DataLength s
  refine ⟨?_, ?_, ?_, ?_⟩
  · obtain ⟨ops1, t1, -, -, p1⟩ := commit_frame hw (OPENBL_OB_Write_regs Data DataLength s)
    have hi : issued s (OPENBL_OB_Write hw Address Data DataLength s).state = ops0 ++ ops1 := by
      apply issued_append
      simp only [OPENBL_OB_Write]
      rw [t1, t0, List.append_assoc]
    rw [hi, pollCount_append]
    omega
  · intro hst
    have hout := commit_of_reset1 hw _ _ (stall_reset hw _ _ hst)
    exact ⟨resetOnStall_of_stall hw _ s _ ops0 _ t0 c0 cb0 hout,
      optStrtUntouched_of_stall hw _ s _ ops0 _ t0 o0 so0 hout⟩
  · intro s1 h1 hst
    obtain ⟨q1, e1, cb1, so1⟩ := returned_frame hw _ _ _ h1
    have hout := commit_of_reset2 hw _ _ _ h1 (stall_reset hw _ _ hst)
    have ht1 : s1.trace = s.trace ++ (ops0 ++ q1) := by
      rw [e1]; simp only; rw [t0, List.append_assoc]
    have hc1 : s1.PostProcessingCallback = s.PostProcessingCallback := by rw [e1]; exact c0
    have ho1 : s1.OPTSTRT = s.OPTSTRT := by rw [e1]; exact o0
    exact ⟨resetOnStall_of_stall hw _ s _ (ops0 ++ q1) _ ht1 hc1
        (by rw [callbackRegistrations_append, cb0, cb1]; rfl) hout,
      optStrtUntouched_of_stall hw _ s _ (ops0 ++ q1) _ ht1 ho1
        (by rw [setsOptStrt_append, so0, so1]; rfl) hout⟩
  · intro s1 s2 h1 h2 hst
    obtain ⟨q1, e1, cb1, -⟩ := returned_frame hw _ _ _ h1
    obtain ⟨q2, e2, cb2, -⟩ := returned_frame hw _ _ _ h2
    have hout := commit_of_reset3 hw _ _ _ _ h1 h2 (stall_reset hw _ _ hst)
    have ht2 : (SET_BIT_CR_OPTSTRT s2).trace =
        s.trace ++ (ops0 ++ q1 ++ q2 ++ [Op.SET_BIT_CR_OPTSTRT]) := by
      rw [e2, e1]
      simp only [SET_BIT_CR_OPTSTRT, emit]
      rw [t0]
      simp only [List.append_assoc]
    have hc2 : (SET_BIT_CR_OPTSTRT s2).PostProcessingCallback = s.PostProcessingCallback := by
      rw [e2, e1]; exact c0
    exact resetOnStall_of_stall hw _ s _ _ _ ht2 hc2
      (by
        rw [callbackRegistrations_append, callbackRegistrations_append,
          callbackRegistrations_append, cb0, cb1, cb2]
        rfl) hout

/-- Witness for C8: on a platform whose flags always read set, with a timeout of 2,
the first busy-wait of `OPENBL_OB_Write` ends in the system reset; with only PESD
stuck the second one does; with BSY stuck after the commit the third one does. -/
theorem C8_ob_write_stall_resets_witness :
    (stalls platformStuck .FLASH_FLAG_BSY (OPENBL_OB_Write_regs (fun _ => 0) 0 State.init).trace ∧
      resetOnStall platformStuck .FLASH_FLAG_BSY State.init
        (OPENBL_OB_Write platformStuck 0 (fun _ => 0) 0 State.init) ∧
      optStrtUntouched State.init (OPENBL_OB_Write platformStuck 0 (fun _ => 0) 0 State.init)) ∧
    (resetOnStall platformSuspended .FLASH_FLAG_PESD State.init
        (OPENBL_OB_Write platformSuspended 0 (fun _ => 0) 0 State.init) ∧
      optStrtUntouched State.init
        (OPENBL_OB_Write platformSuspended 0 (fun _ => 0) 0 State.init)) ∧
    resetOnStall platformBusyAfterStart .FLASH_FLAG_BSY State.init
      (OPENBL_OB_Write platformBusyAfterStart 0 (fun _ => 0) 0 State.init) :=
  ⟨⟨fun _ _ => rfl,
      (C8_ob_write_stall_resets platformStuck 0 (fun _ => 0) 0 State.init).2.1 (fun _ _ => rfl)⟩,
    (C8_ob_write_stall_resets platformSuspended 0 (fun _ => 0) 0 State.init).2.2.1
      (emit (.GET_FLAG .FLASH_FLAG_BSY false) (OPENBL_OB_Write_regs (fun _ => 0) 0 State.init))
      (by rw [waitWhileSet]; rfl) (fun _ _ => rfl),
    (C8_ob_write_stall_resets platformBusyAfterStart 0 (fun _ => 0) 0 State.init).2.2.2
      (emit (.GET_FLAG .FLASH_FLAG_BSY false) (OPENBL_OB_Write_regs (fun _ => 0) 0 State.init))
      (emit (.GET_FLAG .FLASH_FLAG_PESD false)
        (emit (.GET_FLAG .FLASH_FLAG_BSY false)
          (OPENBL_OB_Write_regs (fun _ => 0) 0 State.init)))
      (by rw [waitWhileSet]; rfl) (by rw [waitWhileSet]; rfl)
      (fun k _ => by
        simp [platformBusyAfterStart, setsOptStrt, SET_BIT_CR_OPTSTRT, emit])⟩

/-! ## Flash write: lock discipline and addresses -/

theorem fullUnitOps_all_programStep (q : Nat) : ∀ (A : Nat) (p : BytePtr),
    ∀ o ∈ fullUnitOps A p q, isProgramStep o = true := by
  induction q with
  | zero => intro A p o ho; simp [fullUnitOps] at ho
  | succ q ih =>
    intro A p o ho
    simp only [fullUnitOps, List.cons_append, List.nil_append, List.mem_cons] at ho
    rcases ho with rfl | rfl | ho
    · rfl
    · rfl
    · exact ih _ _ o ho

theorem lastUnitOps_all_programStep (A : Nat) (p : BytePtr) (r : Nat) :
    ∀ o ∈ lastUnitOps A p r, isProgramStep o = true := by
  intro o ho
  unfold lastUnitOps at ho
  split at ho
  · simp only [List.mem_cons, List.mem_singleton, List.not_mem_nil, or_false] at ho
    rcases ho with rfl | rfl <;> rfl
  · simp at ho

theorem count_eq_zero_of_programSteps (a : Op) (mid : List Op)
    (hmid : ∀ o ∈ mid, isProgramStep o = true) (ha : isProgramStep a = false) :
    mid.count a = 0 := by
  rw [List.count_eq_zero]
  intro hmem
  have := hmid a hmem
  rw [ha] at this
  exact Bool.noConfusion this

/-- C11: `OPENBL_FLASH_Write` does nothing at all when the buffer is null or the
length is zero (the state, log included, is unchanged); otherwise the operations it
issues are one unlock, then only error-flag clears and program calls, then one
lock: exactly one unlock, before the first program call, and exactly one lock,
after the last. -/
theorem C11_flash_write_lock_balance (Address : Nat) (pData : BytePtr) (DataLength : Nat)
    (s : State) :
    OPENBL_FLASH_Write Address none DataLength s = s ∧
    (if DataLength = 0 then OPENBL_FLASH_Write Address (some pData) DataLength s = s
     else
      (∃ mid, issued s (OPENBL_FLASH_Write Address (some pData) DataLength s) =
          Op.HAL_FLASH_Unlock :: (mid ++ [Op.HAL_FLASH_Lock]) ∧
        (∀ o ∈ mid, isProgramStep o = true) ∧
        programmedWords mid =
          programmedWords (issued s (OPENBL_FLASH_Write Address (some pData) DataLength s))) ∧
      (issued s (OPENBL_FLASH_Write Address (some pData) DataLength s)).count
        .HAL_FLASH_Unlock = 1 ∧
      (issued s (OPENBL_FLASH_Write Address (some pData) DataLength s)).count
        .HAL_FLASH_Lock = 1) := by
  refine ⟨rfl, ?_⟩
  by_cases hL : DataLength = 0
  · simp [hL, OPENBL_FLASH_Write]
  · simp only [hL, ↓reduceIte]
    have he := OPENBL_FLASH_Write_eq Address pData DataLength s hL
    have hi := issued_append s _ _ (congrArg State.trace he)
    have hmid : ∀ o ∈ fullUnitOps Address pData (DataLength / 8) ++
        lastUnitOps (stepAddr Address (DataLength / 8)) (ptrAdd pData (8 * (DataLength / 8)))
          (DataLength % 8), isProgramStep o = true := by
      intro o ho
      rcases List.mem_append.mp ho with h | h
      · exact fullUnitOps_all_programStep _ _ _ o h
      · exact lastUnitOps_all_programStep _ _ _ o h
    have hshape : issued s (OPENBL_FLASH_Write Address (some pData) DataLength s) =
        Op.HAL_FLASH_Unlock :: ((fullUnitOps Address pData (DataLength / 8) ++
          lastUnitOps (stepAddr Address (DataLength / 8)) (ptrAdd pData (8 * (DataLength / 8)))
            (DataLength % 8)) ++ [Op.HAL_FLASH_Lock]) := by
      rw [hi]
      simp
    have cU := count_eq_zero_of_programSteps .HAL_FLASH_Unlock _ hmid rfl
    have cL := count_eq_zero_of_programSteps .HAL_FLASH_Lock _ hmid rfl
    refine ⟨⟨_, hshape, hmid, ?_⟩, ?_, ?_⟩
    · rw [hshape]
      simp [programmedWords, List.filterMap_append]
    · rw [hshape, List.count_cons, List.count_append, cU]
      simp
    · rw [hshape, List.count_cons, List.count_append, cL]
      simp

/-! ## OTP write -/

theorem otp_loop_eq (L : Nat) : ∀ (A : Nat) (p : BytePtr) (s : State),
    OPENBL_OTP_Write_loop A p L s =
      (stepAddr A (L / 8), ptrAdd p (8 * (L / 8)), L % 8,
        { s with trace := s.trace ++ fullUnitOps A p (L / 8) }) := by
  induction L using Nat.strong_induction_on with
  | _ L ih =>
    intro A p s
    rw [OPENBL_OTP_Write_loop]
    by_cases h : L >>> 3 > 0
    · have h8 : 8 ≤ L := by
        simp only [Nat.shiftRight_eq_div_pow] at h
        omega
      have hq : L / 8 = (L - 8) / 8 + 1 := by omega
      have hm : (L - 8) % 8 = L % 8 := by omega
      have e := ih (L - OTP_PROG_STEP_SIZE) (by simp [OTP_PROG_STEP_SIZE]; omega)
        ((A + OTP_PROG_STEP_SIZE) % 2 ^ 32) (ptrAdd p OTP_PROG_STEP_SIZE)
        (OPENBL_OTP_Program A (derefU64 p) s)
      simp only [h, ↓reduceDIte, e]
      simp only [OTP_PROG_STEP_SIZE] at *
      rw [hq, hm, ptrAdd_ptrAdd]
      simp [stepAddr, fullUnitOps, OPENBL_OTP_Program, emit, FLASH_PROG_STEP_SIZE, derefU64,
        Nat.mul_add, Nat.add_comm]
    · have h8 : L < 8 := by
        simp only [Nat.shiftRight_eq_div_pow] at h
        omega
      have hq : L / 8 = 0 := by omega
      have hm : L % 8 = L := by omega
      simp only [h, ↓reduceDIte, hq, hm]
      simp only [stepAddr, fullUnitOps, List.append_nil, Nat.mul_zero, ptrAdd_zero]

theorem OPENBL_OTP_Write_eq (A : Nat) (p : BytePtr) (L : Nat) (s : State) (hL : L ≠ 0) :
    OPENBL_OTP_Write A (some p) L s =
      { s with trace := s.trace ++ ([Op.HAL_FLASH_Unlock] ++ fullUnitOps A p (L / 8) ++
          lastUnitOps (stepAddr A (L / 8)) (ptrAdd p (8 * (L / 8))) (L % 8) ++
          [Op.HAL_FLASH_Lock, Op.HAL_FLASH_Lock]) } := by
  have e := otp_loop_eq L A p (emit .HAL_FLASH_Unlock s)
  simp only [OPENBL_OTP_Write, hL, ne_eq, not_false_eq_true, ↓reduceIte, e]
  have hr : L % 8 < 8 := Nat.mod_lt _ (by decide)
  by_cases h0 : L % 8 > 0
  · have hrem : (OTP_PROG_STEP_SIZE + 2 ^ 32 - L % 8) % 2 ^ 32 % 256 = 8 - L % 8 := by
      simp only [OTP_PROG_STEP_SIZE]
      omega
    have hlen0 : (List.replicate OTP_PROG_STEP_SIZE 0).length = 8 := by
      simp [OTP_PROG_STEP_SIZE]
    have hcopy := copyBytes_eq (ptrAdd p (8 * (L / 8))) (L % 8)
      (List.replicate OTP_PROG_STEP_SIZE 0) (by omega)
    have hfill := fillFF_eq (L % 8) (8 - L % 8)
      (copyBytes (ptrAdd p (8 * (L / 8))) (L % 8) (List.replicate OTP_PROG_STEP_SIZE 0))
      (by rw [hcopy]; simp [OTP_PROG_STEP_SIZE])
    have htake : List.take (L % 8)
        (copyBytes (ptrAdd p (8 * (L / 8))) (L % 8) (List.replicate OTP_PROG_STEP_SIZE 0))
        = (List.range (L % 8)).map (deref (ptrAdd p (8 * (L / 8)))) := by
      rw [hcopy]
      simp [List.take_append_eq_append_take]
    have hdrop : List.drop (L % 8 + (8 - L % 8))
        (copyBytes (ptrAdd p (8 * (L / 8))) (L % 8) (List.replicate OTP_PROG_STEP_SIZE 0))
        = [] := by
      apply List.drop_eq_nil_of_le
      rw [hcopy]
      simp [OTP_PROG_STEP_SIZE]
    rw [htake, hdrop, List.append_nil] at hfill
    simp only [h0, ↓reduceIte, hrem, hfill, lastUnitOps]
    simp [OPENBL_OTP_Program, emit]
  · simp only [h0, ↓reduceIte, lastUnitOps]
    simp [emit]

/-- C12 (evaluation on the code): `OPENBL_OTP_Write` ends with a `HAL_FLASH_Lock` that
stands after the `if` block. With a null buffer, or with length zero, it issues that
one lock and nothing else; with a buffer of `DataLength + 1` bytes it issues one
unlock and two locks. -/
theorem C12_otp_write_extra_lock (Address : Nat) (pData : BytePtr) (DataLength : Nat)
    (s : State) :
    issued s (OPENBL_OTP_Write Address none DataLength s) = [.HAL_FLASH_Lock] ∧
    issued s (OPENBL_OTP_Write Address (some pData) 0 s) = [.HAL_FLASH_Lock] ∧
    (issued s (OPENBL_OTP_Write Address (some pData) (DataLength + 1) s)).count
      .HAL_FLASH_Unlock = 1 ∧
    (issued s (OPENBL_OTP_Write Address (some pData) (DataLength + 1) s)).count
      .HAL_FLASH_Lock = 2 := by
  refine ⟨by simp [OPENBL_OTP_Write, issued, emit], by simp [OPENBL_OTP_Write, issued, emit],
    ?_, ?_⟩
  all_goals
    have he := OPENBL_OTP_Write_eq Address pData (DataLength + 1) s (by omega)
    have hi := issued_append s _ _ (congrArg State.trace he)
    have hmid : ∀ o ∈ fullUnitOps Address pData ((DataLength + 1) / 8) ++
        lastUnitOps (stepAddr Address ((DataLength + 1) / 8))
          (ptrAdd pData (8 * ((DataLength + 1) / 8))) ((DataLength + 1) % 8),
        isProgramStep o = true := by
      intro o ho
      rcases List.mem_append.mp ho with h | h
      · exact fullUnitOps_all_programStep _ _ _ o h
      · exact lastUnitOps_all_programStep _ _ _ o h
    have cU := count_eq_zero_of_programSteps .HAL_FLASH_Unlock _ hmid rfl
    have cL := count_eq_zero_of_programSteps .HAL_FLASH_Lock _ hmid rfl
    rw [hi, List.append_assoc, List.append_assoc, ← List.append_assoc (fullUnitOps _ _ _),
      List.count_append, List.count_append]
    first
      | rw [cU]; simp
      | rw [cL]; simp

/-! ## Write protection: status -/

/-- C13: `OPENBL_FLASH_SetWriteProtection` returns `SUCCESS` and registers
`OPENBL_OB_Launch` as the deferred callback, once, for `ENABLE` and for `DISABLE`,
whatever the list and the length; for any other state value it returns `ERROR` and
leaves the state, log and callback slot included, unchanged. -/
theorem C13_set_write_protection_status (hw : Platform) (ListOfPages : BytePtr) (Length : Nat)
    (raw : Nat) (s : State) :
    ((OPENBL_FLASH_SetWriteProtection hw .ENABLE ListOfPages Length s).1 = .SUCCESS ∧
      (OPENBL_FLASH_SetWriteProtection hw .ENABLE ListOfPages Length s).2.PostProcessingCallback
        = some .OPENBL_OB_Launch ∧
      callbackRegistrations (issued s
        (OPENBL_FLASH_SetWriteProtection hw .ENABLE ListOfPages Length s).2)
        = [.OPENBL_OB_Launch]) ∧
    ((OPENBL_FLASH_SetWriteProtection hw .DISABLE ListOfPages Length s).1 = .SUCCESS ∧
      (OPENBL_FLASH_SetWriteProtection hw .DISABLE ListOfPages Length s).2.PostProcessingCallback
        = some .OPENBL_OB_Launch ∧
      callbackRegistrations (issued s
        (OPENBL_FLASH_SetWriteProtection hw .DISABLE ListOfPages Length s).2)
        = [.OPENBL_OB_Launch]) ∧
    OPENBL_FLASH_SetWriteProtection hw (.invalid raw) ListOfPages Length s = (.ERROR, s) := by
  refine ⟨⟨rfl, rfl, ?_⟩, ⟨rfl, rfl, ?_⟩, rfl⟩
  · by_cases h2 : 2 ≤ Length <;> by_cases h4 : 4 ≤ Length <;>
    simp [OPENBL_FLASH_SetWriteProtection, OPENBL_FLASH_EnableWriteProtection,
      HAL_FLASHEx_OBProgram, Common_SetPostProcessingCallback, OPENBL_FLASH_OB_Unlock, emit,
      issued, callbackRegistrations, h2, h4]
  · simp [OPENBL_FLASH_SetWriteProtection, OPENBL_FLASH_DisableWriteProtection,
      HAL_FLASHEx_OBProgram, Common_SetPostProcessingCallback, OPENBL_FLASH_OB_Unlock, emit,
      issued, callbackRegistrations]

/-- C14 (evaluation on the code): `OPENBL_FLASH_SetWriteProtection` discards the
status of `HAL_FLASHEx_OBProgram`. On the platform whose option-program primitive
always reports `HAL_ERROR`, disabling, and enabling with a 4-byte list, both return
`SUCCESS`, although every option-program call in the log reported `HAL_ERROR`. -/
theorem C14_set_write_protection_ignores_failure (ListOfPages : BytePtr) (s : State) :
    (OPENBL_FLASH_SetWriteProtection platformOBFails .DISABLE ListOfPages 4 s).1 = .SUCCESS ∧
    (obProgramCalls (issued s
      (OPENBL_FLASH_SetWriteProtection platformOBFails .DISABLE ListOfPages 4 s).2)).map
        Prod.snd = [.HAL_ERROR, .HAL_ERROR] ∧
    (OPENBL_FLASH_SetWriteProtection platformOBFails .ENABLE ListOfPages 4 s).1 = .SUCCESS ∧
    (obProgramCalls (issued s
      (OPENBL_FLASH_SetWriteProtection platformOBFails .ENABLE ListOfPages 4 s).2)).map
        Prod.snd = [.HAL_ERROR, .HAL_ERROR] := by
  refine ⟨rfl, ?_, rfl, ?_⟩
  · simp [OPENBL_FLASH_SetWriteProtection, OPENBL_FLASH_DisableWriteProtection,
      HAL_FLASHEx_OBProgram, Common_SetPostProcessingCallback, OPENBL_FLASH_OB_Unlock, emit,
      issued, obProgramCalls, platformOBFails]
  · simp [OPENBL_FLASH_SetWriteProtection, OPENBL_FLASH_EnableWriteProtection,
      HAL_FLASHEx_OBProgram, Common_SetPostProcessingCallback, OPENBL_FLASH_OB_Unlock, emit,
      issued, obProgramCalls, platformOBFails]

/-! ## Region descriptors -/

/-- C15: `FLASH_Descriptor`, `OTP_Descriptor` and `OB1_Descriptor` each satisfy
`start < end` and `size = end - start`, with `start + size` below `2^32` so that the
32-bit sum that defines the end address does not wrap (nor does `256 * 1024`); their
region-kind tags `FLASH_AREA`, `OTP_AREA` and `OB_AREA` are pairwise distinct. -/
theorem C15_descriptors_well_formed :
    (FLASH_Descriptor.StartAddress < FLASH_Descriptor.EndAddress ∧
      FLASH_Descriptor.Size = FLASH_Descriptor.EndAddress - FLASH_Descriptor.StartAddress ∧
      FLASH_Descriptor.StartAddress + FLASH_Descriptor.Size < 2 ^ 32 ∧
      256 * 1024 < 2 ^ 32) ∧
    (OTP_Descriptor.StartAddress < OTP_Descriptor.EndAddress ∧
      OTP_Descriptor.Size = OTP_Descriptor.EndAddress - OTP_Descriptor.StartAddress ∧
      OTP_Descriptor.StartAddress + OTP_Descriptor.Size < 2 ^ 32) ∧
    (OB1_Descriptor.StartAddress < OB1_Descriptor.EndAddress ∧
      OB1_Descriptor.Size = OB1_Descriptor.EndAddress - OB1_Descriptor.StartAddress ∧
      OB1_Descriptor.StartAddress + OB1_Descriptor.Size < 2 ^ 32) ∧
    [FLASH_Descriptor, OTP_Descriptor, OB1_Descriptor].all
      OPENBL_MemoryTypeDef.wellFormed = true ∧
    FLASH_Descriptor.Kind = FLASH_AREA ∧ OTP_Descriptor.Kind = OTP_AREA ∧
    OB1_Descriptor.Kind = OB_AREA ∧
    FLASH_Descriptor.Kind ≠ OTP_Descriptor.Kind ∧
    FLASH_Descriptor.Kind ≠ OB1_Descriptor.Kind ∧
    OTP_Descriptor.Kind ≠ OB1_Descriptor.Kind := by
  decide

/-! ## Page erase: the pages -/

theorem derefU16_ptrAdd (p : BytePtr) (k : Nat) :
    derefU16 (ptrAdd p k) = deref p k + 256 * deref p (k + 1) := by
  simp [derefU16, deref, ptrAdd]

/-- C16: with `C` the little-endian 16-bit value at bytes 0 and 1 of the request,
`OPENBL_FLASH_Erase` issues exactly `n = min(C, DataLength / 2)` erase calls, and the
`k`-th of them, for `k < n`, is a page erase of one page (`NbPages = 1`) whose page
number is the little-endian 16-bit value at bytes `2 + 2k` and `3 + 2k`. -/
theorem C16_erase_pages_in_buffer_order (hw : Platform) (p_Data : BytePtr) (DataLength : Nat)
    (s : State) :
    (eraseCalls (issued s (OPENBL_FLASH_Erase hw p_Data DataLength s).2)).length =
      min (deref p_Data 0 + 256 * deref p_Data 1) (DataLength / 2) ∧
    (eraseCalls (issued s (OPENBL_FLASH_Erase hw p_Data DataLength s).2)).map Prod.fst =
      (List.range (min (deref p_Data 0 + 256 * deref p_Data 1) (DataLength / 2))).map
        (pageRequest p_Data) := by
  rw [eraseCalls_issued_Erase]
  have hlen : (eraseCalls (eraseRequestOps hw p_Data DataLength s)).length =
      min (derefU16 p_Data) (DataLength / 2) :=
    eraseCalls_pageEraseOps_length hw _ _ _ _
  have hC : derefU16 p_Data = deref p_Data 0 + 256 * deref p_Data 1 := rfl
  rw [← hC]
  refine ⟨hlen, ?_⟩
  apply List.ext_getElem?
  intro k
  by_cases hk : k < min (derefU16 p_Data) (DataLength / 2)
  · obtain ⟨st, h⟩ := eraseCalls_pageEraseOps_get hw (min (derefU16 p_Data) (DataLength / 2))
      { TypeErase := some .FLASH_TYPEERASE_PAGES, NbPages := some 1 }
      (s.trace ++ [.HAL_FLASH_Unlock, .CLEAR_FLAG_ALL_ERRORS]) (ptrAdd p_Data 2) k hk
    rw [ptrAdd_ptrAdd, derefU16_ptrAdd] at h
    have h2 : (eraseCalls (eraseRequestOps hw p_Data DataLength s))[k]? = some
        ({ TypeErase := some .FLASH_TYPEERASE_PAGES,
           Page := some (deref p_Data (2 + 2 * k) + 256 * deref p_Data (2 + 2 * k + 1)),
           NbPages := some 1 }, st) := h
    rw [List.getElem?_map, h2, List.getElem?_map, List.getElem?_range hk]
    simp only [Option.map_some', pageRequest]
    have e3 : 2 + 2 * k + 1 = 3 + 2 * k := by omega
    rw [e3]
  · have h1 : ((eraseCalls (eraseRequestOps hw p_Data DataLength s)).map Prod.fst)[k]? = none := by
      apply List.getElem?_eq_none
      rw [List.length_map, hlen]
      omega
    have h2 : ((List.range (min (derefU16 p_Data) (DataLength / 2))).map
        (pageRequest p_Data))[k]? = none := by
      apply List.getElem?_eq_none
      rw [List.length_map, List.length_range]
      omega
    rw [h1, h2]

/-! ## Flash write: the addresses -/

theorem stepAddr_eq (q : Nat) : ∀ (A : Nat), A < 2 ^ 32 →
    stepAddr A q = (A + 8 * q) % 2 ^ 32 := by
  induction q with
  | zero =>
    intro A hA
    simp only [stepAddr, Nat.mul_zero, Nat.add_zero]
    exact (Nat.mod_eq_of_lt hA).symm
  | succ q ih =>
    intro A hA
    simp only [stepAddr, FLASH_PROG_STEP_SIZE]
    rw [ih ((A + 8) % 2 ^ 32) (Nat.mod_lt _ (by decide))]
    omega

theorem programCalls_fullUnitOps (q : Nat) : ∀ (A : Nat) (p : BytePtr),
    programCalls (fullUnitOps A p q) =
      (List.range q).map (fun k => (FLASH_TypeProgram.FLASH_TYPEPROGRAM_DOUBLEWORD,
        stepAddr A k)) := by
  induction q with
  | zero => intro A p; simp [fullUnitOps, programCalls]
  | succ q ih =>
    intro A p
    have e : programCalls (fullUnitOps A p (q + 1)) =
        (FLASH_TypeProgram.FLASH_TYPEPROGRAM_DOUBLEWORD, A) ::
          programCalls (fullUnitOps ((A + FLASH_PROG_STEP_SIZE) % 2 ^ 32) (ptrAdd p 8) q) := by
      simp [fullUnitOps, programCalls]
    rw [e, ih, List.range_succ_eq_map, List.map_cons, List.map_map]
    rfl

theorem programCalls_lastUnitOps (A : Nat) (p : BytePtr) (r : Nat) :
    programCalls (lastUnitOps A p r) =
      if r > 0 then [(FLASH_TypeProgram.FLASH_TYPEPROGRAM_DOUBLEWORD, A)] else [] := by
  by_cases h : r > 0 <;> simp [lastUnitOps, programCalls, h]

theorem programCalls_issued_Write (A : Nat) (p : BytePtr) (L : Nat) (s : State) :
    programCalls (issued s (OPENBL_FLASH_Write A (some p) L s)) =
      (List.range ((L + 7) / 8)).map (fun k =>
        (FLASH_TypeProgram.FLASH_TYPEPROGRAM_DOUBLEWORD, stepAddr A k)) := by
  by_cases hL : L = 0
  · subst hL
    simp [OPENBL_FLASH_Write, issued, programCalls]
  · have he := OPENBL_FLASH_Write_eq A p L s hL
    rw [issued_append s _ _ (congrArg State.trace he)]
    have hsplit : programCalls ([Op.HAL_FLASH_Unlock] ++ fullUnitOps A p (L / 8) ++
          lastUnitOps (stepAddr A (L / 8)) (ptrAdd p (8 * (L / 8))) (L % 8) ++
          [Op.HAL_FLASH_Lock]) =
        programCalls (fullUnitOps A p (L / 8)) ++
          programCalls (lastUnitOps (stepAddr A (L / 8)) (ptrAdd p (8 * (L / 8))) (L % 8)) := by
      simp [programCalls, List.filterMap_append]
    rw [hsplit, programCalls_fullUnitOps, programCalls_lastUnitOps]
    by_cases h0 : L % 8 > 0
    · have hn : (L + 7) / 8 = L / 8 + 1 := by omega
      rw [hn, List.range_succ, List.map_append]
      simp [h0]
    · have hn : (L + 7) / 8 = L / 8 := by omega
      rw [hn]
      simp [h0]

/-- C17: for a start address `A` (a 32-bit value), the `k`-th program call issued by
`OPENBL_FLASH_Write`, counted from 0, is a double-word program (one 8-byte unit) at
address `(A + 8k) mod 2^32`; there are `⌈L/8⌉` calls, and every address handed to the
program primitive is congruent to `A` modulo 8, hence a multiple of the unit size
when `A` is. -/
theorem C17_flash_write_addresses (Address : Nat) (pData : BytePtr) (DataLength : Nat)
    (s : State) (hA : Address < 2 ^ 32) :
    programCalls (issued s (OPENBL_FLASH_Write Address (some pData) DataLength s)) =
      (List.range ((DataLength + 7) / 8)).map (fun k =>
        (FLASH_TypeProgram.FLASH_TYPEPROGRAM_DOUBLEWORD,
          (Address + FLASH_PROG_STEP_SIZE * k) % 2 ^ 32)) ∧
    (programCalls (issued s (OPENBL_FLASH_Write Address (some pData) DataLength s))).map
        (fun c => c.2 % FLASH_PROG_STEP_SIZE) =
      List.replicate ((DataLength + 7) / 8) (Address % FLASH_PROG_STEP_SIZE) := by
  rw [programCalls_issued_Write]
  have hcalls : (List.range ((DataLength + 7) / 8)).map (fun k =>
        (FLASH_TypeProgram.FLASH_TYPEPROGRAM_DOUBLEWORD, stepAddr Address k)) =
      (List.range ((DataLength + 7) / 8)).map (fun k =>
        (FLASH_TypeProgram.FLASH_TYPEPROGRAM_DOUBLEWORD,
          (Address + FLASH_PROG_STEP_SIZE * k) % 2 ^ 32)) := by
    apply List.map_congr_left
    intro k _
    rw [stepAddr_eq k Address hA]
    rfl
  rw [hcalls]
  refine ⟨rfl, ?_⟩
  rw [List.map_map]
  apply List.ext_getElem
  · simp
  · intro k h1 h2
    simp only [List.getElem_map, List.getElem_range, Function.comp_apply,
      List.getElem_replicate, FLASH_PROG_STEP_SIZE]
    omega

/-- Witness for C17: 11 bytes written from `0xFFFFFFF8` on are programmed at
`0xFFFFFFF8` and, after the 32-bit wrap, at `0`. -/
theorem C17_flash_write_addresses_witness :
    (0xFFFFFFF8 < 2 ^ 32) ∧
    programCalls (issued State.init
        (OPENBL_FLASH_Write 0xFFFFFFF8 (some (fun i => i)) 11 State.init)) =
      [(.FLASH_TYPEPROGRAM_DOUBLEWORD, 0xFFFFFFF8), (.FLASH_TYPEPROGRAM_DOUBLEWORD, 0)] :=
  ⟨by decide,
    (C17_flash_write_addresses 0xFFFFFFF8 (fun i => i) 11 State.init (by decide)).1⟩

/-! ## Option bytes: the values written -/

theorem deref_mod_word (D : BytePtr) (i : Nat) : deref D i % 4294967296 = deref D i := by
  have h : deref D i < 256 := Nat.mod_lt _ (by decide)
  exact Nat.mod_eq_of_lt (by omega)

theorem writtenRegs_eq_map_regWrites (tr : List Op) :
    writtenRegs tr = (regWrites tr).map Prod.fst := by
  induction tr with
  | nil => rfl
  | cons o t ih =>
    cases o <;> simp [writtenRegs, regWrites] at * <;> exact ih

theorem regWrites_eq_nil_of_writtenRegs (tr : List Op) (h : writtenRegs tr = []) :
    regWrites tr = [] := by
  rw [writtenRegs_eq_map_regWrites] at h
  exact List.map_eq_nil_iff.mp h

theorem regWrites_append (a b : List Op) : regWrites (a ++ b) = regWrites a ++ regWrites b := by
  simp [regWrites, List.filterMap_append]

theorem OPENBL_OB_Write_regs_values (Data : BytePtr) (DL : Nat) (s : State) :
    regWrites (issued s (OPENBL_OB_Write_regs Data DL s)) =
      (optionFields.filter (fun r => fieldCovered r DL)).map (fun r => (r, fieldValue Data r)) := by
  by_cases c1 : DL ≥ 1 <;> by_cases c8 : DL > 8 <;> (try omega) <;>
  by_cases c16 : DL > 16 <;> (try omega) <;>
  by_cases c24 : DL > 24 <;> (try omega) <;>
  by_cases c32 : DL > 32 <;> (try omega) <;>
  by_cases c40 : DL > 40 <;> (try omega) <;>
  by_cases c48 : DL > 48 <;> (try omega) <;>
  by_cases c104 : DL > 104 <;> (try omega) <;>
  simp [OPENBL_OB_Write_regs, WRITE_REG, emit, issued, regWrites, optionFields, fieldCovered,
    fieldOffset, fieldValue, deref_mod_word, c1, c8, c16, c24, c32, c40, c48, c104]

theorem OPENBL_OB_Write_regs_final (Data : BytePtr) (DL : Nat) (s : State) (r : Reg) :
    (OPENBL_OB_Write_regs Data DL s).regs r =
      if fieldCovered r DL = true then fieldValue Data r else s.regs r := by
  by_cases c1 : DL ≥ 1 <;> by_cases c8 : DL > 8 <;> (try omega) <;>
  by_cases c16 : DL > 16 <;> (try omega) <;>
  by_cases c24 : DL > 24 <;> (try omega) <;>
  by_cases c32 : DL > 32 <;> (try omega) <;>
  by_cases c40 : DL > 40 <;> (try omega) <;>
  by_cases c48 : DL > 48 <;> (try omega) <;>
  by_cases c104 : DL > 104 <;> (try omega) <;>
  cases r <;>
  simp [OPENBL_OB_Write_regs, WRITE_REG, emit, fieldCovered, fieldOffset, fieldValue,
    deref_mod_word, c1, c8, c16, c24, c32, c40, c48, c104]

theorem OPENBL_OB_Write_regs_mask (Data : BytePtr) (DL : Nat) (s : State) :
    OPENBL_OB_Write_regs (maskTo fieldBytes Data) DL s = OPENBL_OB_Write_regs Data DL s := by
  simp [OPENBL_OB_Write_regs, deref, maskTo, fieldBytes]

/-- C18: for every option buffer `D` and length, `OPENBL_OB_Write` writes to the
register of each covered field the 32-bit value of the field table
(`OPTR = D[0] | D[1]<<8 | D[2]<<16 | D[3]<<24`, `PCROP1ASR = D[8]`,
`PCROP1AER = D[16] | D[19]<<24`, `WRP1AR = D[24] | D[26]<<16`,
`WRP1BR = D[32] | D[34]<<16`, `PCROP1BSR = D[40]`, `PCROP1BER = D[48]`,
`IPCCBR = D[104] | D[105]<<8`, modulo `2^32`), which is then the value of the
register; and no other byte of `D` has any influence: with all other bytes replaced
by zero the call gives the same outcome. -/
theorem C18_ob_write_field_values (hw : Platform) (Address : Nat) (Data : BytePtr)
    (DataLength : Nat) (s : State) :
    regWrites (issued s (OPENBL_OB_Write hw Address Data DataLength s).state) =
      (optionFields.filter (fun r => fieldCovered r DataLength)).map
        (fun r => (r, fieldValue Data r)) ∧
    (∀ r, (OPENBL_OB_Write hw Address Data DataLength s).state.regs r =
      if fieldCovered r DataLength = true then fieldValue Data r else s.regs r) ∧
    OPENBL_OB_Write hw Address (maskTo fieldBytes Data) DataLength s =
      OPENBL_OB_Write hw Address Data DataLength s := by
  obtain ⟨ops0, t0, -⟩ := OPENBL_OB_Write_regs_frame Data DataLength s
  obtain ⟨ops1, t1, r1, w1, -⟩ := commit_frame hw (OPENBL_OB_Write_regs Data DataLength s)
  have hv := OPENBL_OB_Write_regs_values Data DataLength s
  rw [issued_append s _ ops0 t0] at hv
  have hi : issued s (OPENBL_OB_Write hw Address Data DataLength s).state = ops0 ++ ops1 := by
    apply issued_append
    simp only [OPENBL_OB_Write]
    rw [t1, t0, List.append_assoc]
  refine ⟨?_, ?_, ?_⟩
  · rw [hi, regWrites_append, regWrites_eq_nil_of_writtenRegs ops1 w1, List.append_nil, hv]
  · intro r
    simp only [OPENBL_OB_Write]
    rw [r1]
    exact OPENBL_OB_Write_regs_final Data DataLength s r
  · simp only [OPENBL_OB_Write, OPENBL_OB_Write_regs_mask]

/-! ## Option bytes: the order of the commit sequence -/

theorem returned_shape (hw : Platform) (f : FLASH_Flag) (s s1 : State)
    (h : waitWhileSet hw f 0 s = .returned s1) :
    ∃ j, j ≤ hw.OPENBL_OB_TIMEOUT ∧
      s1 = { s with trace := s.trace ++
        (List.replicate j (.GET_FLAG f true) ++ [.GET_FLAG f false]) } := by
  rcases wait_cases hw f hw.OPENBL_OB_TIMEOUT 0 s rfl with ⟨j, hj, e⟩ | ⟨j, _, e⟩
  · rw [h] at e
    exact ⟨j, hj, Outcome.returned.inj e⟩
  · rw [h] at e
    exact Outcome.noConfusion e

theorem commit_returned_shape (hw : Platform) (s t : State)
    (h : OPENBL_OB_Write_commit hw s = .returned t) :
    ∃ j1 j2 j3, j1 ≤ hw.OPENBL_OB_TIMEOUT ∧ j2 ≤ hw.OPENBL_OB_TIMEOUT ∧
      j3 ≤ hw.OPENBL_OB_TIMEOUT ∧
      t = { s with
        OPTSTRT := true
        PostProcessingCallback := some .OPENBL_OB_Launch
        trace := s.trace ++
          ((List.replicate j1 (.GET_FLAG .FLASH_FLAG_BSY true) ++
              [.GET_FLAG .FLASH_FLAG_BSY false]) ++
            (List.replicate j2 (.GET_FLAG .FLASH_FLAG_PESD true) ++
              [.GET_FLAG .FLASH_FLAG_PESD false]) ++
            [.SET_BIT_CR_OPTSTRT] ++
            (List.replicate j3 (.GET_FLAG .FLASH_FLAG_BSY true) ++
              [.GET_FLAG .FLASH_FLAG_BSY false]) ++
            [.Common_SetPostProcessingCallback .OPENBL_OB_Launch]) } := by
  cases h1 : waitWhileSet hw .FLASH_FLAG_BSY 0 s with
  | reset s1 =>
    rw [commit_of_reset1 hw s s1 h1] at h
    exact Outcome.noConfusion h
  | returned s1 =>
    cases h2 : waitWhileSet hw .FLASH_FLAG_PESD 0 s1 with
    | reset s2 =>
      rw [commit_of_reset2 hw s s1 s2 h1 h2] at h
      exact Outcome.noConfusion h
    | returned s2 =>
      cases h3 : waitWhileSet hw .FLASH_FLAG_BSY 0 (SET_BIT_CR_OPTSTRT s2) with
      | reset s3 =>
        rw [commit_of_reset3 hw s s1 s2 s3 h1 h2 h3] at h
        exact Outcome.noConfusion h
      | returned s3 =>
        rw [commit_of_returned hw s s1 s2 s3 h1 h2 h3] at h
        obtain ⟨j1, b1, e1⟩ := returned_shape hw _ _ _ h1
        obtain ⟨j2, b2, e2⟩ := returned_shape hw _ _ _ h2
        obtain ⟨j3, b3, e3⟩ := returned_shape hw _ _ _ h3
        refine ⟨j1, j2, j3, b1, b2, b3, ?_⟩
        rw [← Outcome.returned.inj h, e3, e2, e1]
        simp [Common_SetPostProcessingCallback, SET_BIT_CR_OPTSTRT, emit]

theorem count_optStrt_eq_zero (l : List Op) (h : setsOptStrt l = false) :
    l.count .SET_BIT_CR_OPTSTRT = 0 := by
  rw [List.count_eq_zero]
  intro hmem
  have : setsOptStrt l = true := by
    simp only [setsOptStrt, List.any_eq_true]
    exact ⟨_, hmem, rfl⟩
  rw [h] at this
  exact Bool.noConfusion this

theorem writtenRegs_append (a b : List Op) :
    writtenRegs (a ++ b) = writtenRegs a ++ writtenRegs b := by
  simp [writtenRegs, List.filterMap_append]

/-- C19: in every run of `OPENBL_OB_Write` that returns, for every `DataLength`, the
operations issued are, in this order: the register writes; polls of BSY ending with
one that reads clear; polls of PESD ending with one that reads clear; the setting of
the option start bit; polls of BSY ending with one that reads clear; the
registration of `OPENBL_OB_Launch`. So the start bit is set exactly once, after all
register writes and after BSY and then PESD were seen clear, and the callback is
registered exactly once, as the last step, after BSY was seen clear once more. -/
theorem C19_ob_write_commit_order (hw : Platform) (Address : Nat) (Data : BytePtr)
    (DataLength : Nat) (s t : State)
    (h : OPENBL_OB_Write hw Address Data DataLength s = .returned t) :
    (∃ j1 j2 j3, j1 ≤ hw.OPENBL_OB_TIMEOUT ∧ j2 ≤ hw.OPENBL_OB_TIMEOUT ∧
      j3 ≤ hw.OPENBL_OB_TIMEOUT ∧
      issued s t = issued s (OPENBL_OB_Write_regs Data DataLength s) ++
        ((List.replicate j1 (.GET_FLAG .FLASH_FLAG_BSY true) ++
            [.GET_FLAG .FLASH_FLAG_BSY false]) ++
          (List.replicate j2 (.GET_FLAG .FLASH_FLAG_PESD true) ++
            [.GET_FLAG .FLASH_FLAG_PESD false]) ++
          [.SET_BIT_CR_OPTSTRT] ++
          (List.replicate j3 (.GET_FLAG .FLASH_FLAG_BSY true) ++
            [.GET_FLAG .FLASH_FLAG_BSY false]) ++
          [.Common_SetPostProcessingCallback .OPENBL_OB_Launch])) ∧
    writtenRegs (issued s (OPENBL_OB_Write_regs Data DataLength s)) = writtenRegs (issued s t) ∧
    setsOptStrt (issued s (OPENBL_OB_Write_regs Data DataLength s)) = false ∧
    pollCount (issued s (OPENBL_OB_Write_regs Data DataLength s)) = 0 ∧
    callbackRegistrations (issued s (OPENBL_OB_Write_regs Data DataLength s)) = [] ∧
    (issued s t).count .SET_BIT_CR_OPTSTRT = 1 ∧
    callbackRegistrations (issued s t) = [.OPENBL_OB_Launch] ∧
    (issued s t).getLast? = some (.Common_SetPostProcessingCallback .OPENBL_OB_Launch) ∧
    t.OPTSTRT = true ∧ t.PostProcessingCallback = some .OPENBL_OB_Launch := by
  obtain ⟨ops0, t0, -, -, -, cb0, so0, p0⟩ := OPENBL_OB_Write_regs_frame Data DataLength s
  have hi0 := issued_append s _ ops0 t0
  obtain ⟨j1, j2, j3, b1, b2, b3, e⟩ := commit_returned_shape hw _ t h
  have hi : issued s t = ops0 ++
      ((List.replicate j1 (.GET_FLAG .FLASH_FLAG_BSY true) ++
          [.GET_FLAG .FLASH_FLAG_BSY false]) ++
        (List.replicate j2 (.GET_FLAG .FLASH_FLAG_PESD true) ++
          [.GET_FLAG .FLASH_FLAG_PESD false]) ++
        [.SET_BIT_CR_OPTSTRT] ++
        (List.replicate j3 (.GET_FLAG .FLASH_FLAG_BSY true) ++
          [.GET_FLAG .FLASH_FLAG_BSY false]) ++
        [.Common_SetPostProcessingCallback .OPENBL_OB_Launch]) := by
    apply issued_append
    rw [e]
    simp only
    rw [t0, List.append_assoc]
  rw [hi0]
  refine ⟨⟨j1, j2, j3, b1, b2, b3, hi⟩, ?_, so0, p0, cb0, ?_, ?_, ?_, ?_, ?_⟩
  · rw [hi, writtenRegs_append]
    simp only [writtenRegs_append, writtenRegs_polls]
    simp [writtenRegs]
  · rw [hi, List.count_append, count_optStrt_eq_zero ops0 so0]
    simp [List.count_append, List.count_replicate]
  · rw [hi, callbackRegistrations_append, cb0]
    simp only [callbackRegistrations_append, callbackRegistrations_polls]
    simp [callbackRegistrations]
  · rw [hi, ← List.append_assoc]
    exact List.getLast?_concat _
  · rw [e]
  · rw [e]

/-- Witness for C19: on the platform whose flags never read set, the call with a
9-byte option buffer returns, after one clear poll in each busy-wait. -/
theorem C19_ob_write_commit_order_witness :
    OPENBL_OB_Write platformOK 0 (fun i => i) 9 State.init =
      .returned (Common_SetPostProcessingCallback .OPENBL_OB_Launch
        (emit (.GET_FLAG .FLASH_FLAG_BSY false) (SET_BIT_CR_OPTSTRT
          (emit (.GET_FLAG .FLASH_FLAG_PESD false) (emit (.GET_FLAG .FLASH_FLAG_BSY false)
            (OPENBL_OB_Write_regs (fun i => i) 9 State.init)))))) ∧
    (issued State.init (Common_SetPostProcessingCallback .OPENBL_OB_Launch
        (emit (.GET_FLAG .FLASH_FLAG_BSY false) (SET_BIT_CR_OPTSTRT
          (emit (.GET_FLAG .FLASH_FLAG_PESD false) (emit (.GET_FLAG .FLASH_FLAG_BSY false)
            (OPENBL_OB_Write_regs (fun i => i) 9 State.init))))))).count
      .SET_BIT_CR_OPTSTRT = 1 :=
  have hrun : OPENBL_OB_Write platformOK 0 (fun i => i) 9 State.init =
      .returned (Common_SetPostProcessingCallback .OPENBL_OB_Launch
        (emit (.GET_FLAG .FLASH_FLAG_BSY false) (SET_BIT_CR_OPTSTRT
          (emit (.GET_FLAG .FLASH_FLAG_PESD false) (emit (.GET_FLAG .FLASH_FLAG_BSY false)
            (OPENBL_OB_Write_regs (fun i => i) 9 State.init)))))) :=
    commit_of_returned platformOK _ _ _ _ (by rw [waitWhileSet]; rfl)
      (by rw [waitWhileSet]; rfl) (by rw [waitWhileSet]; rfl)
  ⟨hrun,
    (C19_ob_write_commit_order platformOK 0 (fun i => i) 9 State.init _ hrun).2.2.2.2.2.1⟩

/-! ## Erase: lock discipline -/

theorem pageEraseOps_all_eraseCall (hw : Platform) (n : Nat) :
    ∀ (init : FLASH_EraseInitTypeDef) (tr : List Op) (p : BytePtr),
      ∀ o ∈ pageEraseOps hw init tr p n, isEraseCall o = true := by
  induction n with
  | zero => intro init tr p o ho; simp [pageEraseOps] at ho
  | succ n ih =>
    intro init tr p o ho
    simp only [pageEraseOps, List.mem_cons] at ho
    rcases ho with rfl | ho
    · rfl
    · exact ih _ _ _ o ho

theorem count_eq_zero_of_eraseCalls (a : Op) (mid : List Op)
    (hmid : ∀ o ∈ mid, isEraseCall o = true) (ha : isEraseCall a = false) :
    mid.count a = 0 := by
  rw [List.count_eq_zero]
  intro hmem
  have := hmid a hmem
  rw [ha] at this
  exact Bool.noConfusion this

theorem flashLockedAfter_concat_lock (b : Bool) (l : List Op) :
    flashLockedAfter b (l ++ [.HAL_FLASH_Lock]) = true := by
  simp [flashLockedAfter, List.foldl_append]

theorem erase_bracket_facts (b : Bool) (ops mid : List Op)
    (hshape : ops = Op.HAL_FLASH_Unlock :: Op.CLEAR_FLAG_ALL_ERRORS ::
      (mid ++ [Op.HAL_FLASH_Lock]))
    (hmid : ∀ o ∈ mid, isEraseCall o = true) :
    ops.count .HAL_FLASH_Unlock = 1 ∧ ops.count .HAL_FLASH_Lock = 1 ∧
    eraseCalls mid = eraseCalls ops ∧ flashLockedAfter b ops = true := by
  have cU := count_eq_zero_of_eraseCalls .HAL_FLASH_Unlock mid hmid rfl
  have cL := count_eq_zero_of_eraseCalls .HAL_FLASH_Lock mid hmid rfl
  subst hshape
  refine ⟨?_, ?_, ?_, ?_⟩
  · rw [List.count_cons, List.count_cons, List.count_append, cU]
    simp
  · rw [List.count_cons, List.count_cons, List.count_append, cL]
    simp
  · simp [eraseCalls, List.filterMap_append]
  · have e : Op.HAL_FLASH_Unlock :: Op.CLEAR_FLAG_ALL_ERRORS :: (mid ++ [Op.HAL_FLASH_Lock]) =
        (Op.HAL_FLASH_Unlock :: Op.CLEAR_FLAG_ALL_ERRORS :: mid) ++ [Op.HAL_FLASH_Lock] := by
      simp
    rw [e]
    exact flashLockedAfter_concat_lock b _

/-- C20: on every path of `OPENBL_FLASH_Erase` and of `OPENBL_FLASH_MassErase`, the
operations issued are one unlock and one clearing of the error flags, then only
calls of the erase primitive (none when `DataLength < 2` in the mass erase), then
one lock: exactly one unlock before any erase call and exactly one lock after the
last, so controller access is locked at return, whatever it was before and whatever
the erase calls reported. -/
theorem C20_erase_lock_balance (hw : Platform) (p_Data : BytePtr) (DataLength : Nat)
    (s : State) (locked : Bool) :
    ((∃ mid, issued s (OPENBL_FLASH_Erase hw p_Data DataLength s).2 =
          Op.HAL_FLASH_Unlock :: Op.CLEAR_FLAG_ALL_ERRORS :: (mid ++ [Op.HAL_FLASH_Lock]) ∧
        (∀ o ∈ mid, isEraseCall o = true) ∧
        eraseCalls mid = eraseCalls (issued s (OPENBL_FLASH_Erase hw p_Data DataLength s).2)) ∧
      (issued s (OPENBL_FLASH_Erase hw p_Data DataLength s).2).count .HAL_FLASH_Unlock = 1 ∧
      (issued s (OPENBL_FLASH_Erase hw p_Data DataLength s).2).count .HAL_FLASH_Lock = 1 ∧
      flashLockedAfter locked (issued s (OPENBL_FLASH_Erase hw p_Data DataLength s).2) = true) ∧
    ((∃ mid, issued s (OPENBL_FLASH_MassErase hw p_Data DataLength s).2 =
          Op.HAL_FLASH_Unlock :: Op.CLEAR_FLAG_ALL_ERRORS :: (mid ++ [Op.HAL_FLASH_Lock]) ∧
        (∀ o ∈ mid, isEraseCall o = true) ∧
        eraseCalls mid =
          eraseCalls (issued s (OPENBL_FLASH_MassErase hw p_Data DataLength s).2)) ∧
      (issued s (OPENBL_FLASH_MassErase hw p_Data DataLength s).2).count .HAL_FLASH_Unlock = 1 ∧
      (issued s (OPENBL_FLASH_MassErase hw p_Data DataLength s).2).count .HAL_FLASH_Lock = 1 ∧
      flashLockedAfter locked
        (issued s (OPENBL_FLASH_MassErase hw p_Data DataLength s).2) = true) := by
  constructor
  · have hshape : issued s (OPENBL_FLASH_Erase hw p_Data DataLength s).2 =
        Op.HAL_FLASH_Unlock :: Op.CLEAR_FLAG_ALL_ERRORS ::
          (eraseRequestOps hw p_Data DataLength s ++ [Op.HAL_FLASH_Lock]) := by
      rw [OPENBL_FLASH_Erase_eq, issued_append s _ _ rfl]
      simp
    have hmid : ∀ o ∈ eraseRequestOps hw p_Data DataLength s, isEraseCall o = true :=
      pageEraseOps_all_eraseCall hw _ _ _ _
    obtain ⟨f1, f2, f3, f4⟩ := erase_bracket_facts locked _ _ hshape hmid
    exact ⟨⟨_, hshape, hmid, f3⟩, f1, f2, f4⟩
  · by_cases hd : 2 ≤ DataLength
    · have hshape : issued s (OPENBL_FLASH_MassErase hw p_Data DataLength s).2 =
          Op.HAL_FLASH_Unlock :: Op.CLEAR_FLAG_ALL_ERRORS ::
            ([Op.HAL_FLASHEx_Erase { TypeErase := some .FLASH_TYPEERASE_MASSERASE }
                (hw.HAL_FLASHEx_Erase (s.trace ++ [.HAL_FLASH_Unlock, .CLEAR_FLAG_ALL_ERRORS])
                  { TypeErase := some .FLASH_TYPEERASE_MASSERASE })] ++
              [Op.HAL_FLASH_Lock]) := by
        by_cases hr : hw.HAL_FLASHEx_Erase
            (s.trace ++ [.HAL_FLASH_Unlock, .CLEAR_FLAG_ALL_ERRORS])
            { TypeErase := some .FLASH_TYPEERASE_MASSERASE } = .HAL_OK <;>
        simp [OPENBL_FLASH_MassErase, HAL_FLASHEx_Erase, OPENBL_FLASH_Unlock,
          OPENBL_FLASH_Lock, emit, issued, hd, hr]
      have hmid : ∀ o ∈ [Op.HAL_FLASHEx_Erase { TypeErase := some .FLASH_TYPEERASE_MASSERASE }
          (hw.HAL_FLASHEx_Erase (s.trace ++ [.HAL_FLASH_Unlock, .CLEAR_FLAG_ALL_ERRORS])
            { TypeErase := some .FLASH_TYPEERASE_MASSERASE })], isEraseCall o = true := by
        intro o ho
        rw [List.mem_singleton] at ho
        subst ho
        rfl
      obtain ⟨f1, f2, f3, f4⟩ := erase_bracket_facts locked _ _ hshape hmid
      exact ⟨⟨_, hshape, hmid, f3⟩, f1, f2, f4⟩
    · have hshape : issued s (OPENBL_FLASH_MassErase hw p_Data DataLength s).2 =
          Op.HAL_FLASH_Unlock :: Op.CLEAR_FLAG_ALL_ERRORS :: ([] ++ [Op.HAL_FLASH_Lock]) := by
        simp [OPENBL_FLASH_MassErase, OPENBL_FLASH_Unlock, OPENBL_FLASH_Lock, emit, issued, hd]
      have hmid : ∀ o ∈ ([] : List Op), isEraseCall o = true := by
        intro o ho
        simp at ho
      obtain ⟨f1, f2, f3, f4⟩ := erase_bracket_facts locked _ _ hshape hmid
      exact ⟨⟨_, hshape, hmid, f3⟩, f1, f2, f4⟩

/-! ## Mass erase: independence of the buffer content -/

/-- C21: the result and the operations of `OPENBL_FLASH_MassErase` do not depend on
the content of the request buffer: two runs from the same state with the same
`DataLength`, on any two buffers, and on platforms whose erase primitive answers the
mass-erase call alike, return the same status and the same state, log included. -/
theorem C21_mass_erase_ignores_buffer (hw hw2 : Platform) (p_Data p_Data2 : BytePtr)
    (DataLength : Nat) (s : State)
    (h : hw.HAL_FLASHEx_Erase (s.trace ++ [.HAL_FLASH_Unlock, .CLEAR_FLAG_ALL_ERRORS])
        massEraseRequest =
      hw2.HAL_FLASHEx_Erase (s.trace ++ [.HAL_FLASH_Unlock, .CLEAR_FLAG_ALL_ERRORS])
        massEraseRequest) :
    (OPENBL_FLASH_MassErase hw p_Data DataLength s).1 =
      (OPENBL_FLASH_MassErase hw2 p_Data2 DataLength s).1 ∧
    issued s (OPENBL_FLASH_MassErase hw p_Data DataLength s).2 =
      issued s (OPENBL_FLASH_MassErase hw2 p_Data2 DataLength s).2 ∧
    OPENBL_FLASH_MassErase hw p_Data DataLength s =
      OPENBL_FLASH_MassErase hw2 p_Data2 DataLength s := by
  have e : OPENBL_FLASH_MassErase hw p_Data DataLength s =
      OPENBL_FLASH_MassErase hw2 p_Data2 DataLength s := by
    simp only [massEraseRequest] at h
    by_cases hd : 2 ≤ DataLength
    · simp [OPENBL_FLASH_MassErase, HAL_FLASHEx_Erase, OPENBL_FLASH_Unlock, OPENBL_FLASH_Lock,
        emit, hd, h]
    · simp [OPENBL_FLASH_MassErase, OPENBL_FLASH_Unlock, OPENBL_FLASH_Lock, emit, hd]
  exact ⟨by rw [e], by rw [e], e⟩

/-- Witness for C21: a request of two bytes `0xFF 0xFF` and one of two bytes `0 0`, on
two platforms that both report `HAL_OK` for the erase. -/
theorem C21_mass_erase_ignores_buffer_witness :
    platformOK.HAL_FLASHEx_Erase
        (State.init.trace ++ [.HAL_FLASH_Unlock, .CLEAR_FLAG_ALL_ERRORS]) massEraseRequest =
      platformStuck.HAL_FLASHEx_Erase
        (State.init.trace ++ [.HAL_FLASH_Unlock, .CLEAR_FLAG_ALL_ERRORS]) massEraseRequest ∧
    issued State.init (OPENBL_FLASH_MassErase platformOK (fun _ => 0xFF) 2 State.init).2 =
      issued State.init (OPENBL_FLASH_MassErase platformStuck (fun _ => 0) 2 State.init).2 :=
  ⟨rfl, (C21_mass_erase_ignores_buffer platformOK platformStuck (fun _ => 0xFF) (fun _ => 0) 2
    State.init rfl).2.1⟩

/-! ## Region descriptors: capabilities and the memory map -/

/-- C22: every optional capability slot of `OTP_Descriptor` and of `OB1_Descriptor`
(read-protection, write-protection, jump and both erase slots) is absent, and their
read and write slots are present; `FLASH_Descriptor` has read-protection,
write-protection, jump and page erase present and exactly one absent slot, the one
between jump and erase; `OPENBL_FLASH_MassErase` is in no slot of any of the three. -/
theorem C22_descriptor_capabilities :
    OTP_Descriptor.optionalSlots = [none, none, none, none, none] ∧
    OB1_Descriptor.optionalSlots = [none, none, none, none, none] ∧
    OTP_Descriptor.Read = some .OPENBL_OTP_Read ∧
    OTP_Descriptor.Write = some .OPENBL_OTP_Write ∧
    OB1_Descriptor.Read = some .OPENBL_OB_Read ∧
    OB1_Descriptor.Write = some .OPENBL_OB_Write ∧
    FLASH_Descriptor.optionalSlots =
      [some .OPENBL_FLASH_SetReadOutProtectionLevel, some .OPENBL_FLASH_SetWriteProtection,
        some .OPENBL_FLASH_JumpToAddress, none, some .OPENBL_FLASH_Erase] ∧
    FLASH_Descriptor.slots.count none = 1 ∧
    FLASH_Descriptor.MassErase = none ∧
    (FLASH_Descriptor.slots ++ OTP_Descriptor.slots ++ OB1_Descriptor.slots).count
      (some .OPENBL_FLASH_MassErase) = 0 := by
  decide

/-- C25: the ranges `[start, end)` of the six memory regions of the configuration
(FLASH, RAM, ICP1, OB1, OTP, EB) are pairwise disjoint; every size and every sum
`start + size` is below `2^32`, so each end address is `start + size` without
wrapping; and every address lies in at most one region. -/
theorem C25_memory_regions_disjoint (a : Nat) :
    memoryRegions.Pairwise (fun r1 r2 => regionsDisjoint r1 r2 = true) ∧
    (memoryRegions.all fun r =>
      decide (r.1 + r.2.2 < 2 ^ 32) && decide (r.2.1 = r.1 + r.2.2)) = true ∧
    256 * 1024 < 2 ^ 32 ∧ 64 * 1024 < 2 ^ 32 ∧ 28 * 1024 < 2 ^ 32 ∧
    (memoryRegions.filter (inRegion a)).length ≤ 1 := by
  refine ⟨by decide, by decide, by decide, by decide, by decide, ?_⟩
  have e : memoryRegions =
      [(0x08000000, 0x08040000, 0x40000), (0x20000000, 0x20010000, 0x10000),
       (0x1FFF0000, 0x1FFF7000, 0x7000), (0x1FFF7800, 0x1FFF7870, 112),
       (0x1FFF7000, 0x1FFF7400, 1024), (0x1FFF7400, 0x1FFF7800, 1024)] := by
    decide
  rw [e]
  simp only [List.filter, inRegion]
  by_cases h1 : 0x08000000 ≤ a <;> by_cases h2 : a < 0x08040000 <;> (try omega) <;>
  by_cases h3 : 0x20000000 ≤ a <;> (try omega) <;>
  by_cases h4 : a < 0x20010000 <;> (try omega) <;>
  by_cases h5 : 0x1FFF0000 ≤ a <;> (try omega) <;>
  by_cases h6 : a < 0x1FFF7000 <;> (try omega) <;>
  by_cases h7 : 0x1FFF7800 ≤ a <;> (try omega) <;>
  by_cases h8 : a < 0x1FFF7870 <;> (try omega) <;>
  by_cases h9 : 0x1FFF7000 ≤ a <;> (try omega) <;>
  by_cases h10 : a < 0x1FFF7400 <;> (try omega) <;>
  by_cases h11 : 0x1FFF7400 ≤ a <;> (try omega) <;>
  by_cases h12 : a < 0x1FFF7800 <;> (try omega) <;>
  simp [h1, h2, h3, h4, h5, h6, h7, h8, h9, h10, h11, h12]

/-! ## OTP write and flash write -/

theorem programOps_append (a b : List Op) :
    programOps (a ++ b) = programOps a ++ programOps b := by
  simp [programOps, List.filterMap_append]

theorem fullUnitOps_paired (q : Nat) : ∀ (A : Nat) (p : BytePtr),
    fullUnitOps A p q = (programOps (fullUnitOps A p q)).flatMap programCallOps := by
  induction q with
  | zero => intro A p; simp [fullUnitOps, programOps]
  | succ q ih =>
    intro A p
    have e : programOps (fullUnitOps A p (q + 1)) =
        (FLASH_TypeProgram.FLASH_TYPEPROGRAM_DOUBLEWORD, A,
            loadLE ((List.range 8).map (deref p))) ::
          programOps (fullUnitOps ((A + FLASH_PROG_STEP_SIZE) % 2 ^ 32) (ptrAdd p 8) q) := by
      simp [fullUnitOps, programOps]
    rw [e, List.flatMap_cons, ← ih]
    simp [fullUnitOps, programCallOps]

theorem lastUnitOps_paired (A : Nat) (p : BytePtr) (r : Nat) :
    lastUnitOps A p r = (programOps (lastUnitOps A p r)).flatMap programCallOps := by
  by_cases h : r > 0 <;> simp [lastUnitOps, programOps, programCallOps, h]

theorem filter_not_lock_of_programSteps (mid : List Op)
    (hmid : ∀ o ∈ mid, isProgramStep o = true) :
    mid.filter (fun o => !isLockOp o) = mid := by
  rw [List.filter_eq_self]
  intro o ho
  have := hmid o ho
  cases o <;> simp [isProgramStep, isLockOp] at this ⊢

/-- C23: for every start address, buffer (null or not) and length, `OPENBL_OTP_Write`
and `OPENBL_FLASH_Write` issue the same program calls, with the same type, address
and 64-bit data, in the same order; in both, the operations other than lock and
unlock are exactly these calls, each as an error-flag clear directly followed by the
program primitive; the two logs differ only in lock calls: the OTP log is the flash
log followed by one more `HAL_FLASH_Lock`. -/
theorem C23_otp_write_same_programs (Address : Nat) (pData : Option BytePtr)
    (DataLength : Nat) (s : State) :
    programOps (issued s (OPENBL_OTP_Write Address pData DataLength s)) =
      programOps (issued s (OPENBL_FLASH_Write Address pData DataLength s)) ∧
    (issued s (OPENBL_OTP_Write Address pData DataLength s)).filter (fun o => !isLockOp o) =
      (issued s (OPENBL_FLASH_Write Address pData DataLength s)).filter
        (fun o => !isLockOp o) ∧
    (issued s (OPENBL_FLASH_Write Address pData DataLength s)).filter (fun o => !isLockOp o) =
      (programOps (issued s (OPENBL_FLASH_Write Address pData DataLength s))).flatMap
        programCallOps ∧
    issued s (OPENBL_OTP_Write Address pData DataLength s) =
      issued s (OPENBL_FLASH_Write Address pData DataLength s) ++ [.HAL_FLASH_Lock] := by
  have hkey : issued s (OPENBL_OTP_Write Address pData DataLength s) =
        issued s (OPENBL_FLASH_Write Address pData DataLength s) ++ [.HAL_FLASH_Lock] ∧
      (issued s (OPENBL_FLASH_Write Address pData DataLength s)).filter
          (fun o => !isLockOp o) =
        (programOps (issued s (OPENBL_FLASH_Write Address pData DataLength s))).flatMap
          programCallOps := by
    cases pData with
    | none => simp [OPENBL_OTP_Write, OPENBL_FLASH_Write, issued, emit, programOps]
    | some p =>
      by_cases hL : DataLength = 0
      · subst hL
        simp [OPENBL_OTP_Write, OPENBL_FLASH_Write, issued, emit, programOps]
      · have hf := issued_append s _ _
          (congrArg State.trace (OPENBL_FLASH_Write_eq Address p DataLength s hL))
        have ho := issued_append s _ _
          (congrArg State.trace (OPENBL_OTP_Write_eq Address p DataLength s hL))
        rw [hf, ho]
        refine ⟨by simp, ?_⟩
        have hmid : ∀ o ∈ fullUnitOps Address p (DataLength / 8) ++
            lastUnitOps (stepAddr Address (DataLength / 8))
              (ptrAdd p (8 * (DataLength / 8))) (DataLength % 8),
            isProgramStep o = true := by
          intro o h
          rcases List.mem_append.mp h with h | h
          · exact fullUnitOps_all_programStep _ _ _ o h
          · exact lastUnitOps_all_programStep _ _ _ o h
        have hfilt := filter_not_lock_of_programSteps _ hmid
        have hpair : fullUnitOps Address p (DataLength / 8) ++
            lastUnitOps (stepAddr Address (DataLength / 8))
              (ptrAdd p (8 * (DataLength / 8))) (DataLength % 8) =
            (programOps (fullUnitOps Address p (DataLength / 8) ++
              lastUnitOps (stepAddr Address (DataLength / 8))
                (ptrAdd p (8 * (DataLength / 8))) (DataLength % 8))).flatMap
              programCallOps := by
          rw [programOps_append, List.flatMap_append, ← fullUnitOps_paired,
            ← lastUnitOps_paired]
        have hshape : [Op.HAL_FLASH_Unlock] ++ fullUnitOps Address p (DataLength / 8) ++
            lastUnitOps (stepAddr Address (DataLength / 8))
              (ptrAdd p (8 * (DataLength / 8))) (DataLength % 8) ++ [Op.HAL_FLASH_Lock] =
            [Op.HAL_FLASH_Unlock] ++ ((fullUnitOps Address p (DataLength / 8) ++
              lastUnitOps (stepAddr Address (DataLength / 8))
                (ptrAdd p (8 * (DataLength / 8))) (DataLength % 8)) ++
              [Op.HAL_FLASH_Lock]) := by
          simp
        rw [hshape, List.filter_append, List.filter_append, hfilt, programOps_append,
          programOps_append]
        simpa [isLockOp, programOps] using hpair
  obtain ⟨h1, h2⟩ := hkey
  refine ⟨?_, ?_, h2, h1⟩
  · rw [h1, programOps_append]
    simp [programOps]
  · rw [h1, List.filter_append]
    simp [isLockOp]

/-! ## Option bytes: reads and the buffer length -/

theorem readByte_of_lt (Data : List Nat) (i : Nat) (h : i < Data.length) :
    readByte Data i = some (deref (bufferOf Data) i) := by
  simp [readByte, deref, bufferOf, List.getD, List.getElem?_eq_getElem h]

theorem readByte_of_le (Data : List Nat) (i : Nat) (h : Data.length ≤ i) :
    readByte Data i = none := by
  simp [readByte, List.getElem?_eq_none h]

theorem OPENBL_OB_Write_regs_checked_cases (Data : List Nat) (s : State) :
    (Data.length ∈ overreadLengths ∧
      OPENBL_OB_Write_regs_checked Data Data.length s = none) ∨
    (Data.length ∉ overreadLengths ∧
      OPENBL_OB_Write_regs_checked Data Data.length s =
        some (OPENBL_OB_Write_regs (bufferOf Data) Data.length s)) := by
  by_cases c1 : Data.length ≥ 1 <;> by_cases c8 : Data.length > 8 <;> (try omega) <;>
  by_cases c16 : Data.length > 16 <;> (try omega) <;>
  by_cases c24 : Data.length > 24 <;> (try omega) <;>
  by_cases c32 : Data.length > 32 <;> (try omega) <;>
  by_cases c40 : Data.length > 40 <;> (try omega) <;>
  by_cases c48 : Data.length > 48 <;> (try omega) <;>
  by_cases c104 : Data.length > 104 <;> (try omega) <;>
  rcases Nat.lt_or_ge 0 Data.length with k0 | k0 <;> (try omega) <;>
  rcases Nat.lt_or_ge 1 Data.length with k1 | k1 <;> (try omega) <;>
  rcases Nat.lt_or_ge 2 Data.length with k2 | k2 <;> (try omega) <;>
  rcases Nat.lt_or_ge 3 Data.length with k3 | k3 <;> (try omega) <;>
  rcases Nat.lt_or_ge 19 Data.length with k19 | k19 <;> (try omega) <;>
  rcases Nat.lt_or_ge 26 Data.length with k26 | k26 <;> (try omega) <;>
  rcases Nat.lt_or_ge 34 Data.length with k34 | k34 <;> (try omega) <;>
  rcases Nat.lt_or_ge 105 Data.length with k105 | k105 <;> (try omega) <;>
  first
    | (left
       refine ⟨by simp only [overreadLengths, List.mem_cons, List.mem_singleton,
                  List.not_mem_nil, or_false]; omega, ?_⟩
       simp [OPENBL_OB_Write_regs_checked, c1, c8, c16, c24, c32, c40, c48, c104,
         readByte_of_lt, readByte_of_le, k0, k1, k2, k3, k19, k26, k34, k105])
    | (right
       refine ⟨by simp only [overreadLengths, List.mem_cons, List.mem_singleton,
                  List.not_mem_nil, or_false]; omega, ?_⟩
       simp [OPENBL_OB_Write_regs_checked, OPENBL_OB_Write_regs, c1, c8, c16, c24, c32, c40,
         c48, c104, readByte_of_lt, readByte_of_le, k0, k1, k2, k3, k19, k26, k34, k105])

/-- C24 (evaluation on the code): with the option buffer a list of exactly
`DataLength` bytes and every read checked, the register writes of `OPENBL_OB_Write`
read behind the buffer exactly for the lengths 1, 2, 3, 17, 18, 19, 25, 26, 33, 34
and 105, where a guard admits a field whose later bytes are not supplied; so for a
1-byte buffer the write of `OPTR` reads indices 1, 2 and 3. For every other length
all reads are inside the buffer and the checked run agrees with the unchecked one. -/
theorem C24_ob_write_reads_behind_buffer (Data : List Nat) (b : Nat) (s : State) :
    (OPENBL_OB_Write_regs_checked Data Data.length s = none ↔
      Data.length ∈ overreadLengths) ∧
    (Data.length ∈ overreadLengths ∨
      OPENBL_OB_Write_regs_checked Data Data.length s =
        some (OPENBL_OB_Write_regs (bufferOf Data) Data.length s)) ∧
    OPENBL_OB_Write_regs_checked [b] 1 s = none ∧
    readByte [b] 0 = some (b % 256) ∧ readByte [b] 1 = none ∧ readByte [b] 2 = none ∧
    readByte [b] 3 = none := by
  refine ⟨?_, ?_, ?_, rfl, rfl, rfl, rfl⟩
  · rcases OPENBL_OB_Write_regs_checked_cases Data s with ⟨hm, hn⟩ | ⟨hm, hs⟩
    · exact ⟨fun _ => hm, fun _ => hn⟩
    · constructor
      · intro hnone
        rw [hs] at hnone
        exact Option.noConfusion hnone
      · intro hmem
        exact absurd hmem hm
  · rcases OPENBL_OB_Write_regs_checked_cases Data s with ⟨hm, _⟩ | ⟨_, hs⟩
    · exact Or.inl hm
    · exact Or.inr hs
  · rcases OPENBL_OB_Write_regs_checked_cases [b] s with ⟨_, hn⟩ | ⟨hm, _⟩
    · exact hn
    · exact absurd (by simp [overreadLengths] : [b].length ∈ overreadLengths) hm

/-! ## Locks and the deferred callback -/

theorem flashLockedAfter_append (b : Bool) (a c : List Op) :
    flashLockedAfter b (a ++ c) = flashLockedAfter (flashLockedAfter b a) c := by
  simp [flashLockedAfter, List.foldl_append]

theorem obLockedAfter_append (b : Bool) (a c : List Op) :
    obLockedAfter b (a ++ c) = obLockedAfter (obLockedAfter b a) c := by
  simp [obLockedAfter, List.foldl_append]

theorem flashLockedAfter_polls (b : Bool) (f : FLASH_Flag) (v : Bool) (j : Nat) :
    flashLockedAfter b (List.replicate j (.GET_FLAG f v)) = b := by
  induction j with
  | zero => rfl
  | succ j ih =>
    rw [List.replicate_succ]
    exact ih

theorem obLockedAfter_polls (b : Bool) (f : FLASH_Flag) (v : Bool) (j : Nat) :
    obLockedAfter b (List.replicate j (.GET_FLAG f v)) = b := by
  induction j with
  | zero => rfl
  | succ j ih =>
    rw [List.replicate_succ]
    exact ih

theorem regs_stage_unlocks (Data : BytePtr) (DL : Nat) (s : State) (b bo : Bool) :
    flashLockedAfter b (issued s (OPENBL_OB_Write_regs Data DL s)) = false ∧
    obLockedAfter bo (issued s (OPENBL_OB_Write_regs Data DL s)) = false := by
  by_cases c1 : DL ≥ 1 <;> by_cases c8 : DL > 8 <;> (try omega) <;>
  by_cases c16 : DL > 16 <;> (try omega) <;>
  by_cases c24 : DL > 24 <;> (try omega) <;>
  by_cases c32 : DL > 32 <;> (try omega) <;>
  by_cases c40 : DL > 40 <;> (try omega) <;>
  by_cases c48 : DL > 48 <;> (try omega) <;>
  by_cases c104 : DL > 104 <;> (try omega) <;>
  simp [OPENBL_OB_Write_regs, WRITE_REG, emit, issued, flashLockedAfter, obLockedAfter,
    c1, c8, c16, c24, c32, c40, c48, c104]

theorem ob_write_returned_unlocked (hw : Platform) (Address : Nat) (Data : BytePtr)
    (DL : Nat) (s t : State) (b bo : Bool)
    (h : OPENBL_OB_Write hw Address Data DL s = .returned t) :
    leftUnlockedWithLaunch b bo s t := by
  obtain ⟨ops0, t0, -⟩ := OPENBL_OB_Write_regs_frame Data DL s
  obtain ⟨u1, u2⟩ := regs_stage_unlocks Data DL s b bo
  rw [issued_append s _ ops0 t0] at u1 u2
  obtain ⟨j1, j2, j3, -, -, -, e⟩ := commit_returned_shape hw _ t h
  have hi : issued s t = ops0 ++
      ((List.replicate j1 (.GET_FLAG .FLASH_FLAG_BSY true) ++
          [.GET_FLAG .FLASH_FLAG_BSY false]) ++
        (List.replicate j2 (.GET_FLAG .FLASH_FLAG_PESD true) ++
          [.GET_FLAG .FLASH_FLAG_PESD false]) ++
        [.SET_BIT_CR_OPTSTRT] ++
        (List.replicate j3 (.GET_FLAG .FLASH_FLAG_BSY true) ++
          [.GET_FLAG .FLASH_FLAG_BSY false]) ++
        [.Common_SetPostProcessingCallback .OPENBL_OB_Launch]) := by
    apply issued_append
    rw [e]
    simp only
    rw [t0, List.append_assoc]
  refine ⟨?_, ?_, by rw [e]⟩
  · rw [hi, flashLockedAfter_append, u1]
    simp only [flashLockedAfter_append, flashLockedAfter_polls]
    rfl
  · rw [hi, obLockedAfter_append, u2]
    simp only [obLockedAfter_append, obLockedAfter_polls]
    rfl

/-- C26: each operation that changes option or protection state leaves flash access
and option-byte access unlocked and `OPENBL_OB_Launch` registered as the deferred
callback: `OPENBL_FLASH_SetReadOutProtectionLevel` for a level other than
`OB_RDP_LEVEL2`, `OPENBL_FLASH_SetWriteProtection` for `ENABLE` and for `DISABLE`,
and `OPENBL_OB_Write` when it returns. `OPENBL_OB_Launch` issues the option-byte
launch, then the option-byte lock, then the flash lock, after which both are
locked. -/
theorem C26_protection_ops_leave_unlocked (hw : Platform) (Level : Nat)
    (ListOfPages : BytePtr) (Length : Nat) (Address : Nat) (Data : BytePtr)
    (DataLength : Nat) (s : State) (locked obLocked : Bool) :
    (Level = hw.OB_RDP_LEVEL2 ∨
      leftUnlockedWithLaunch locked obLocked s
        (OPENBL_FLASH_SetReadOutProtectionLevel hw Level s)) ∧
    leftUnlockedWithLaunch locked obLocked s
      (OPENBL_FLASH_SetWriteProtection hw .ENABLE ListOfPages Length s).2 ∧
    leftUnlockedWithLaunch locked obLocked s
      (OPENBL_FLASH_SetWriteProtection hw .DISABLE ListOfPages Length s).2 ∧
    ((OPENBL_OB_Write hw Address Data DataLength s).isReset = true ∨
      leftUnlockedWithLaunch locked obLocked s
        (OPENBL_OB_Write hw Address Data DataLength s).state) ∧
    issued s (OPENBL_OB_Launch s) =
      [.HAL_FLASH_OB_Launch, .HAL_FLASH_OB_Lock, .HAL_FLASH_Lock] ∧
    flashLockedAfter false (issued s (OPENBL_OB_Launch s)) = true ∧
    obLockedAfter false (issued s (OPENBL_OB_Launch s)) = true := by
  refine ⟨?_, ?_, ?_, ?_, ?_, ?_, ?_⟩
  · by_cases hl : Level = hw.OB_RDP_LEVEL2
    · exact Or.inl hl
    · right
      simp [leftUnlockedWithLaunch, OPENBL_FLASH_SetReadOutProtectionLevel, hl,
        HAL_FLASHEx_OBProgram, Common_SetPostProcessingCallback, OPENBL_FLASH_OB_Unlock, emit,
        issued, flashLockedAfter, obLockedAfter]
  · by_cases h2 : 2 ≤ Length <;> by_cases h4 : 4 ≤ Length <;>
    simp [leftUnlockedWithLaunch, OPENBL_FLASH_SetWriteProtection,
      OPENBL_FLASH_EnableWriteProtection, HAL_FLASHEx_OBProgram,
      Common_SetPostProcessingCallback, OPENBL_FLASH_OB_Unlock, emit, issued,
      flashLockedAfter, obLockedAfter, h2, h4]
  · simp [leftUnlockedWithLaunch, OPENBL_FLASH_SetWriteProtection,
      OPENBL_FLASH_DisableWriteProtection, HAL_FLASHEx_OBProgram,
      Common_SetPostProcessingCallback, OPENBL_FLASH_OB_Unlock, emit, issued,
      flashLockedAfter, obLockedAfter]
  · cases hout : OPENBL_OB_Write hw Address Data DataLength s with
    | reset t => exact Or.inl rfl
    | returned t =>
      exact Or.inr (ob_write_returned_unlocked hw Address Data DataLength s t locked obLocked
        hout)
  · simp [OPENBL_OB_Launch, emit, issued]
  · simp [OPENBL_OB_Launch, emit, issued, flashLockedAfter]
  · simp [OPENBL_OB_Launch, emit, issued, obLockedAfter]

end OpenBL
